import Mathlib

/-!
# Capital-turnover calculator: shallow embedding and verified properties

The program is a console menu around one calculation routine.  The embedding
below follows the single C++ source file function by function.

Modelling conventions

* A finite `double` is the rational number it denotes (`ℚ`).  The values the
  program receives (arguments of `calculate_turnover`, numbers read from
  `cin`) are finite and are carried as rationals; comparing them is comparing
  rationals.  The literal `1e12` is `1000000000000`; the literal `0.01` is
  compared as `1/100`, which decides `x < 0.01` and `x >= 0.01` the same way
  for every `double` `x`, no `double` lying between `1/100` and the `double`
  nearest to it.
* The values the program computes are of type `Dbl`: a finite rational, the
  two infinities, or NaN.  A division is the exact quotient rounded to binary64
  (`round_double`: round to nearest, ties to even, gradual underflow, overflow
  to infinity).  The two zeros of IEEE-754 are identified: the program divides
  only behind a `> 0` guard, so the sign of a zero shows in printed text only.
* `int` values are integers (`ℤ`); the only `int` arithmetic in the program is
  comparison with small constants and one conversion to `double`.
* `cout` is a list of output items (`Out`), one constructor per output
  statement of the source.  The sticky formatting manipulators
  (`fixed`, `setprecision(1)`) are presentation only and are not modelled: a
  printed number is carried with its value, not with its decimal text.
* `cin` is a finite sequence of lines, each a sequence of whitespace-separated
  tokens.  A token records what `cin >> double` and `cin >> int` make of it,
  and an extraction takes a token whole or leaves it whole: a numeral followed
  without a blank by other characters is outside the model, and so is the
  text of a token (a numeral too large for the target type is simply a token
  whose extraction fails).
* At end of input every extraction fails and nothing is left to discard, so a
  loop that only leaves on a successful extraction runs forever there.
* `while (true)` loops take a fuel argument that bounds the number of
  iterations; `none` means the loop has not returned within the fuel.
-/

namespace Turnover

/-! ## Console input -/

/-- One whitespace-delimited token of standard input, described by the outcome
of the two formatted extractions the program performs: `asDouble` is the value
stored by a successful `cin >> value` with `double value`, `asInt` the value
stored by a successful `cin >> n` with `int n`; `none` is a failed extraction
(the stream's fail bit is set and the token stays unread). -/
structure Token where
  asDouble : Option ℚ
  asInt : Option ℤ
deriving DecidableEq

/-- Standard input: the remaining lines, the first one being the unread rest of
the current line. -/
abbrev Input := List (List Token)

/-- Formatted extraction `cin >> value` for a `double`: leading whitespace,
line ends included, is skipped; at end of input the extraction fails; otherwise
the next token is parsed, and consumed only when the parse succeeds. -/
def read_double : Input → Option ℚ × Input
  | [] => (none, [])
  | [] :: ls => read_double ls
  | (t :: ts) :: ls =>
    match t.asDouble with
    | some v => (some v, ts :: ls)
    | none => (none, (t :: ts) :: ls)

/-- Formatted extraction `cin >> n` for an `int`, as `read_double`. -/
def read_int : Input → Option ℤ × Input
  | [] => (none, [])
  | [] :: ls => read_int ls
  | (t :: ts) :: ls =>
    match t.asInt with
    | some v => (some v, ts :: ls)
    | none => (none, (t :: ts) :: ls)

/-- The pair `cin.clear(); cin.ignore(numeric_limits<streamsize>::max(), '\n')`:
the rest of the current line is discarded, line end included. -/
def ignore_line : Input → Input
  | [] => []
  | _ :: ls => ls

/-! ## Double-precision arithmetic -/

/-- A computed value of type `double`: a finite number, plus or minus
infinity, or NaN. -/
inductive Dbl where
  | fin (q : ℚ)
  | pinf
  | ninf
  | nan
deriving DecidableEq

/-- The comparison `x > c` of a `double` with a finite constant; it is false
when `x` is NaN. -/
def Dbl.gt : Dbl → ℚ → Bool
  | .fin q, c => decide (q > c)
  | .pinf, _ => true
  | .ninf, _ => false
  | .nan, _ => false

/-- Rounding of a rational to the nearest integer, a tie going to the even
neighbour. -/
def round_half_even (y : ℚ) : ℤ :=
  if y - ⌊y⌋ < 1 / 2 then ⌊y⌋
  else if y - ⌊y⌋ > 1 / 2 then ⌊y⌋ + 1
  else if ⌊y⌋ % 2 = 0 then ⌊y⌋
  else ⌊y⌋ + 1

/-- The spacing of binary64 numbers around `x`: `2 ^ (e - 52)` where
`2 ^ e ≤ |x| < 2 ^ (e + 1)`, and `2 ^ (-1074)` throughout the subnormal range
`|x| < 2 ^ (-1022)`. -/
def ulp (x : ℚ) : ℚ :=
  (2 : ℚ) ^ (Int.log 2 (max |x| ((2 : ℚ) ^ (-1022 : ℤ))) - 52)

/-- The multiple of `ulp x` nearest to `x`, a tie going to the even multiple. -/
def nearest (x : ℚ) : ℚ := (round_half_even (x / ulp x) : ℚ) * ulp x

/-- IEEE-754 binary64 rounding of an exact result (round to nearest, ties to
even): the nearest multiple of the spacing, or an infinity when that reaches
`2 ^ 1024` in magnitude. -/
def round_double (x : ℚ) : Dbl :=
  if nearest x ≥ 2 ^ 1024 then .pinf
  else if nearest x ≤ -2 ^ 1024 then .ninf
  else .fin (nearest x)

/-- The division `x / d` of a finite `double` `x` by a computed `double` `d`
that is not zero: the rounded exact quotient for a finite divisor, zero for an
infinite one, NaN for NaN. -/
def div_double (x : ℚ) : Dbl → Dbl
  | .fin q => round_double (x / q)
  | .pinf => .fin 0
  | .ninf => .fin 0
  | .nan => .nan

/-! ## Console output -/

/-- The output statements of the program (source line numbers in brackets). -/
inductive Out where
  /-- The nine lines printed by `show_menu` [49-58]. -/
  | menu
  /-- "Выход из программы. До свидания!" [33]. -/
  | goodbye
  /-- "Ошибка: введите число от 1 до 3" [37]. -/
  | errChoice
  /-- "Ошибка: введите числовое значение" [41, 72]. -/
  | errNotNumeric
  /-- The prompt text handed to `get_positive_input` [64]. -/
  | prompt (text : String)
  /-- "Ошибка: значение должно быть от MIN до MAX" [69]. -/
  | errBounds (min_val max_val : ℚ)
  /-- "=== ВВОД ФИНАНСОВЫХ ДАННЫХ ===" [83]. -/
  | inputHeader
  /-- "Ошибка: активы должны быть не менее 0.01" [94]. -/
  | errAssetsMin
  /-- "Введите период для расчета (1-366 дней, по умолчанию 365): " [105]. -/
  | periodPrompt
  /-- "Ошибка: период должен быть от 1 до 366 дней" [110, 161]. -/
  | errPeriod
  /-- "=== ВЫПОЛНЕНИЕ РАСЧЕТОВ ===" [121]. -/
  | calcHeader
  /-- "Ошибка: выручка должна быть в диапазоне от 0 до 10^12" [141]. -/
  | errRevenue
  /-- "Ошибка: среднегодовые активы должны быть в диапазоне от 0.01 до 10^12" [146]. -/
  | errAssets
  /-- "Ошибка: собственный капитал должен быть в диапазоне от 0 до 10^12" [151]. -/
  | errEquity
  /-- "Ошибка: заемный капитал должен быть в диапазоне от 0 до 10^12" [156]. -/
  | errDebt
  /-- "=== РЕЗУЛЬТАТЫ РАСЧЕТА ===" [189]. -/
  | resultsHeader
  /-- "Оборачиваемость активов: VALUE" [191]. -/
  | assetTurnover (value : Dbl)
  /-- "Оборачиваемость собственного капитала: VALUE" [194]. -/
  | equityTurnover (value : Dbl)
  /-- "Оборачиваемость собственного капитала: не рассчитывается (СК = 0)" [196]. -/
  | equityNotComputed
  /-- "Оборачиваемость заемного капитала: VALUE" [200]. -/
  | debtTurnover (value : Dbl)
  /-- "Оборачиваемость заемного капитала: не рассчитывается (ЗК = 0)" [202]. -/
  | debtNotComputed
  /-- "Период оборота: VALUE дней" [207]. -/
  | turnoverPeriod (value : Dbl)
  /-- "Период оборота: не рассчитывается" [209]. -/
  | periodNotComputed
  /-- "=== АНАЛИЗ РЕЗУЛЬТАТОВ ===" [213]. -/
  | analysisHeader
  /-- "• Оборачиваемость активов: LABEL" [215]. -/
  | assetAnalysis (label : String)
  /-- "• Оборачиваемость собственного капитала: LABEL" [218]. -/
  | equityAnalysis (label : String)
  /-- "• Оборачиваемость заемного капитала: LABEL" [222]. -/
  | debtAnalysis (label : String)
  /-- The three closing remarks and the rule below them [226-230]. -/
  | advice
  /-- "=== АВТОМАТИЧЕСКОЕ ТЕСТИРОВАНИЕ ===" [234]. -/
  | testsHeader
  /-- The title and rule printed before self-test number `n` [236-269]. -/
  | testTitle (n : ℕ)
  /-- "=== ТЕСТИРОВАНИЕ ЗАВЕРШЕНО ===" [272]. -/
  | testsFooter
deriving DecidableEq

/-- The five messages printed by the input check of `calculate_turnover`. -/
def Out.isValidationError : Out → Bool
  | .errRevenue => true
  | .errAssets => true
  | .errEquity => true
  | .errDebt => true
  | .errPeriod => true
  | _ => false

/-- The lines that carry a computed figure or its "not computed" placeholder. -/
def Out.isResultLine : Out → Bool
  | .resultsHeader => true
  | .assetTurnover _ => true
  | .equityTurnover _ => true
  | .equityNotComputed => true
  | .debtTurnover _ => true
  | .debtNotComputed => true
  | .turnoverPeriod _ => true
  | .periodNotComputed => true
  | .analysisHeader => true
  | .assetAnalysis _ => true
  | .equityAnalysis _ => true
  | .debtAnalysis _ => true
  | .advice => true
  | _ => false

/-- The items written while the session asks for its five figures [83-119],
the extra average-assets message of line 94 left out. -/
def Out.isDataEntry : Out → Bool
  | .inputHeader => true
  | .prompt _ => true
  | .errBounds _ _ => true
  | .errNotNumeric => true
  | .periodPrompt => true
  | .errPeriod => true
  | _ => false

/-- Output `pre` was written before the rest of a computation ran. -/
def emit {α : Type} (pre : List Out) : Option (α × List Out) → Option (α × List Out)
  | none => none
  | some (a, o) => some (a, pre ++ o)

/-! ## interpret_turnover [125-133] -/

/-- The label "высокая оборачиваемость". -/
def High : String := "высокая оборачиваемость"

/-- The label "средняя оборачиваемость". -/
def Medium : String := "средняя оборачиваемость"

/-- The label "низкая оборачиваемость". -/
def Low : String := "низкая оборачиваемость"

/-- Source function `interpret_turnover`. -/
def interpret_turnover (turnover : Dbl) : String :=
  if turnover.gt 2 then
    "высокая оборачиваемость"
  else if turnover.gt 1 then
    "средняя оборачиваемость"
  else
    "низкая оборачиваемость"

/-! ## calculate_turnover [135-231] -/

/-- The input check at the head of `calculate_turnover` [139-163]: the message
of the first failing test, or `none` when all five pass. -/
def validation_error (revenue avg_assets equity_capital debt_capital : ℚ)
    (period_days : ℤ) : Option Out :=
  if revenue < 0 ∨ revenue > 1000000000000 then
    some .errRevenue
  else if avg_assets < 1 / 100 ∨ avg_assets > 1000000000000 then
    some .errAssets
  else if equity_capital < 0 ∨ equity_capital > 1000000000000 then
    some .errEquity
  else if debt_capital < 0 ∨ debt_capital > 1000000000000 then
    some .errDebt
  else if period_days < 1 ∨ period_days > 366 then
    some .errPeriod
  else
    none

/-- The four local variables of `calculate_turnover` after line 185. -/
structure Ratios where
  asset_turnover : Dbl
  equity_turnover : Dbl
  debt_turnover : Dbl
  turnover_period : Dbl
deriving DecidableEq

/-- The computation part of `calculate_turnover` [165-185]. -/
def compute_ratios (revenue avg_assets equity_capital debt_capital : ℚ)
    (period_days : ℤ) : Ratios :=
  let asset_turnover : Dbl :=
    if avg_assets > 0 then round_double (revenue / avg_assets) else .fin 0
  let equity_turnover : Dbl :=
    if equity_capital > 0 then round_double (revenue / equity_capital) else .fin 0
  let debt_turnover : Dbl :=
    if debt_capital > 0 then round_double (revenue / debt_capital) else .fin 0
  let turnover_period : Dbl :=
    if asset_turnover.gt 0 then div_double (period_days : ℚ) asset_turnover else .fin 0
  { asset_turnover := asset_turnover
    equity_turnover := equity_turnover
    debt_turnover := debt_turnover
    turnover_period := turnover_period }

/-- The printing part of `calculate_turnover` [187-230]. -/
def print_results (r : Ratios) : List Out :=
  [.resultsHeader, .assetTurnover r.asset_turnover]
  ++ (if r.equity_turnover.gt 0 then [.equityTurnover r.equity_turnover]
      else [.equityNotComputed])
  ++ (if r.debt_turnover.gt 0 then [.debtTurnover r.debt_turnover]
      else [.debtNotComputed])
  ++ (if r.turnover_period.gt 0 then [.turnoverPeriod r.turnover_period]
      else [.periodNotComputed])
  ++ [.analysisHeader, .assetAnalysis (interpret_turnover r.asset_turnover)]
  ++ (if r.equity_turnover.gt 0 then
        [.equityAnalysis (interpret_turnover r.equity_turnover)]
      else [])
  ++ (if r.debt_turnover.gt 0 then [.debtAnalysis (interpret_turnover r.debt_turnover)]
      else [])
  ++ [.advice]

/-- Source function `calculate_turnover`: what it writes to `cout`. -/
def calculate_turnover (revenue avg_assets equity_capital debt_capital : ℚ)
    (period_days : ℤ) : List Out :=
  match validation_error revenue avg_assets equity_capital debt_capital period_days with
  | some e => [e]
  | none =>
    print_results (compute_ratios revenue avg_assets equity_capital debt_capital period_days)

/-! ## test_calculation [233-273] -/

/-- Source function `test_calculation`: what it writes to `cout`. -/
def test_calculation : List Out :=
  [.testsHeader]
  ++ [.testTitle 1] ++ calculate_turnover 2000000 1000000 500000 300000 365
  ++ [.testTitle 2] ++ calculate_turnover 1000000 600000 300000 150000 365
  ++ [.testTitle 3] ++ calculate_turnover 1000000 500000 400000 0 365
  ++ [.testTitle 4] ++ calculate_turnover 1000000 500000 0 400000 365
  ++ [.testTitle 5] ++ calculate_turnover 5000000 1000000 2000000 500000 365
  ++ [.testTitle 6] ++ calculate_turnover 500000 1000000 800000 200000 365
  ++ [.testTitle 7] ++ calculate_turnover 1000000 0 500000 300000 365
  ++ [.testTitle 8] ++ calculate_turnover (-1000000) 500000 300000 200000 365
  ++ [.testTitle 9] ++ calculate_turnover 1000000 500000 300000 200000 90
  ++ [.testsFooter]

/-! ## get_positive_input [61-77] -/

/-- Source function `get_positive_input`.  The result is the returned value,
the input left unread and the output written; `none` when the loop has not
returned within `fuel` iterations. -/
def get_positive_input (prompt : String) (min_val max_val : ℚ) :
    ℕ → Input → Option ((ℚ × Input) × List Out)
  | 0, _ => none
  | fuel + 1, s =>
    match read_double s with
    | (some value, s1) =>
      if value ≥ min_val ∧ value ≤ max_val then
        some ((value, s1), [.prompt prompt])
      else
        emit [.prompt prompt, .errBounds min_val max_val]
          (get_positive_input prompt min_val max_val fuel s1)
    | (none, s1) =>
      emit [.prompt prompt, .errNotNumeric]
        (get_positive_input prompt min_val max_val fuel (ignore_line s1))

/-! ## get_user_input_and_calculate [79-123] -/

/-- The prompt for the revenue [86]. -/
def promptRevenue : String := "Введите выручку от продаж (0 - 10^12): "

/-- The prompt for the average assets [90]. -/
def promptAssets : String := "Введите среднегодовую стоимость активов (0.01 - 10^12): "

/-- The prompt for the equity capital [98]. -/
def promptEquity : String := "Введите собственный капитал (0 - 10^12): "

/-- The prompt for the debt capital [101]. -/
def promptDebt : String := "Введите заемный капитал (0 - 10^12): "

/-- The loop around the average-assets prompt [89-95]. -/
def read_avg_assets : ℕ → Input → Option ((ℚ × Input) × List Out)
  | 0, _ => none
  | fuel + 1, s =>
    match get_positive_input promptAssets (1 / 100) 1000000000000 fuel s with
    | none => none
    | some ((avg_assets, s1), o) =>
      if avg_assets ≥ 1 / 100 then
        some ((avg_assets, s1), o)
      else
        emit (o ++ [.errAssetsMin]) (read_avg_assets fuel s1)

/-- The loop around the period prompt [104-119]. -/
def read_period : ℕ → Input → Option ((ℤ × Input) × List Out)
  | 0, _ => none
  | fuel + 1, s =>
    match read_int s with
    | (some period_days, s1) =>
      if period_days ≥ 1 ∧ period_days ≤ 366 then
        some ((period_days, s1), [.periodPrompt])
      else
        emit [.periodPrompt, .errPeriod] (read_period fuel s1)
    | (none, s1) =>
      some ((365, ignore_line s1), [.periodPrompt])

/-- The five local variables of `get_user_input_and_calculate` at line 121,
which are the arguments of its call of `calculate_turnover`. -/
structure Inputs where
  revenue : ℚ
  avg_assets : ℚ
  equity_capital : ℚ
  debt_capital : ℚ
  period_days : ℤ
deriving DecidableEq

/-- The data-entry part of `get_user_input_and_calculate` [83-119]. -/
def collect_inputs (fuel : ℕ) (s : Input) : Option ((Inputs × Input) × List Out) :=
  match get_positive_input promptRevenue 0 1000000000000 fuel s with
  | none => none
  | some ((revenue, s1), o1) =>
    match read_avg_assets fuel s1 with
    | none => none
    | some ((avg_assets, s2), o2) =>
      match get_positive_input promptEquity 0 1000000000000 fuel s2 with
      | none => none
      | some ((equity_capital, s3), o3) =>
        match get_positive_input promptDebt 0 1000000000000 fuel s3 with
        | none => none
        | some ((debt_capital, s4), o4) =>
          match read_period fuel s4 with
          | none => none
          | some ((period_days, s5), o5) =>
            some ((⟨revenue, avg_assets, equity_capital, debt_capital, period_days⟩, s5),
              [.inputHeader] ++ o1 ++ o2 ++ o3 ++ o4 ++ o5)

/-- Source function `get_user_input_and_calculate`: the input left unread and
the output written. -/
def get_user_input_and_calculate (fuel : ℕ) (s : Input) : Option (Input × List Out) :=
  match collect_inputs fuel s with
  | none => none
  | some ((i, s1), o) =>
    some (s1, o ++ [.calcHeader]
      ++ calculate_turnover i.revenue i.avg_assets i.equity_capital i.debt_capital
          i.period_days)

/-! ## main [19-46] -/

/-- Source function `main`: the exit status and the output written; `none`
when the menu loop has not returned within `fuel` iterations. -/
def main : ℕ → Input → Option (ℤ × List Out)
  | 0, _ => none
  | fuel + 1, s =>
    match read_int s with
    | (some choice, s1) =>
      if choice = 1 then
        match get_user_input_and_calculate fuel s1 with
        | none => none
        | some (s2, o) => emit (.menu :: o) (main fuel s2)
      else if choice = 2 then
        emit (.menu :: test_calculation) (main fuel s1)
      else if choice = 3 then
        some (0, [.menu, .goodbye])
      else
        emit [.menu, .errChoice] (main fuel s1)
    | (none, s1) =>
      emit [.menu, .errNotNumeric] (main fuel (ignore_line s1))

/-! ## Specification-side notions -/

/-- The five preconditions of the calculation, as the specification lists
them. -/
def Valid (revenue averageAssets equityCapital debtCapital : ℚ) (periodDays : ℤ) : Prop :=
  (0 ≤ revenue ∧ revenue ≤ 1000000000000) ∧
  (1 / 100 ≤ averageAssets ∧ averageAssets ≤ 1000000000000) ∧
  (0 ≤ equityCapital ∧ equityCapital ≤ 1000000000000) ∧
  (0 ≤ debtCapital ∧ debtCapital ≤ 1000000000000) ∧
  (1 ≤ periodDays ∧ periodDays ≤ 366)

/-- The specification's reading of the bounded-number prompt on an input of
lines of tokens: `FirstValid lo hi s v rest` says that, reading `s` token by
token, `v` is the first token that both parses as a number and lies in
`[lo, hi]`, and `rest` is the input after it.  A token met before it is either
numeric but out of range, after which reading goes on with the next token, or
non-numeric, after which the rest of its line is discarded. -/
inductive FirstValid (lo hi : ℚ) : Input → ℚ → Input → Prop
  | blank {ls : Input} {v : ℚ} {rest : Input} :
      FirstValid lo hi ls v rest → FirstValid lo hi ([] :: ls) v rest
  | accept {t : Token} {ts : List Token} {ls : Input} {v : ℚ} :
      t.asDouble = some v → lo ≤ v → v ≤ hi →
      FirstValid lo hi ((t :: ts) :: ls) v (ts :: ls)
  | outOfRange {t : Token} {ts : List Token} {ls : Input} {w v : ℚ} {rest : Input} :
      t.asDouble = some w → ¬ (lo ≤ w ∧ w ≤ hi) →
      FirstValid lo hi (ts :: ls) v rest →
      FirstValid lo hi ((t :: ts) :: ls) v rest
  | nonNumeric {t : Token} {ts : List Token} {ls : Input} {v : ℚ} {rest : Input} :
      t.asDouble = none →
      FirstValid lo hi ls v rest →
      FirstValid lo hi ((t :: ts) :: ls) v rest

/-- The specification's menu state machine on an input of lines of tokens:
`MenuRun s out` says that the menu, started on input `s`, reaches Exit having
written `out`.  From MenuDisplay, selection 3 exits; selection 1 runs one
calculation session and returns to the menu; selection 2 runs the self-tests
and returns to the menu; any other integer reports an error and stays in the
menu; a non-numeric token reports an error, discards the rest of its line and
stays in the menu. -/
inductive MenuRun : Input → List Out → Prop
  | blank {ls : Input} {out : List Out} :
      MenuRun ls out → MenuRun ([] :: ls) out
  | exit {t : Token} {ts : List Token} {ls : Input} :
      t.asInt = some 3 →
      MenuRun ((t :: ts) :: ls) [.menu, .goodbye]
  | calculation {t : Token} {ts : List Token} {ls : Input} {fuel : ℕ} {s2 : Input}
      {o out : List Out} :
      t.asInt = some 1 →
      get_user_input_and_calculate fuel (ts :: ls) = some (s2, o) →
      MenuRun s2 out →
      MenuRun ((t :: ts) :: ls) (.menu :: o ++ out)
  | tests {t : Token} {ts : List Token} {ls : Input} {out : List Out} :
      t.asInt = some 2 →
      MenuRun (ts :: ls) out →
      MenuRun ((t :: ts) :: ls) (.menu :: test_calculation ++ out)
  | other {t : Token} {ts : List Token} {ls : Input} {c : ℤ} {out : List Out} :
      t.asInt = some c → c ≠ 1 → c ≠ 2 → c ≠ 3 →
      MenuRun (ts :: ls) out →
      MenuRun ((t :: ts) :: ls) (.menu :: .errChoice :: out)
  | nonNumeric {t : Token} {ts : List Token} {ls : Input} {out : List Out} :
      t.asInt = none →
      MenuRun ls out →
      MenuRun ((t :: ts) :: ls) (.menu :: .errNotNumeric :: out)

/-- The specification's notion of a number that is a binary64 value: an
integer of magnitude below `2 ^ 53` times a power of two with exponent from
`-1074` to `971`. -/
def IsDouble (x : ℚ) : Prop :=
  ∃ m k : ℤ, |m| < 2 ^ 53 ∧ -1074 ≤ k ∧ k ≤ 971 ∧ x = (m : ℚ) * (2 : ℚ) ^ k

/-- A token that is the decimal numeral of the integer `n`: both extractions
succeed with that value. -/
def Token.ofInt (n : ℤ) : Token := ⟨some (n : ℚ), some n⟩

/-- A token that is no numeral at all: both extractions fail. -/
def Token.word : Token := ⟨none, none⟩

/-! ## Rounding to double precision -/

theorem ulp_pos (x : ℚ) : 0 < ulp x := by
  unfold ulp
  exact zpow_pos (by norm_num) _

theorem clamp_pos (x : ℚ) : 0 < max |x| ((2 : ℚ) ^ (-1022 : ℤ)) :=
  lt_max_of_lt_right (zpow_pos (by norm_num) _)

theorem ulp_le (x : ℚ) : ulp x ≤ max |x| ((2 : ℚ) ^ (-1022 : ℤ)) * 2 ^ (-52 : ℤ) := by
  unfold ulp
  have h := Int.zpow_log_le_self (b := 2) (by norm_num) (clamp_pos x)
  rw [Nat.cast_ofNat] at h
  rw [sub_eq_add_neg, zpow_add₀ (by norm_num : (2 : ℚ) ≠ 0)]
  exact mul_le_mul_of_nonneg_right h (le_of_lt (zpow_pos (by norm_num) _))

theorem lt_ulp (x : ℚ) : max |x| ((2 : ℚ) ^ (-1022 : ℤ)) < ulp x * 2 ^ (53 : ℤ) := by
  unfold ulp
  have h := Int.lt_zpow_succ_log_self (b := 2) (by norm_num) (max |x| ((2 : ℚ) ^ (-1022 : ℤ)))
  rw [Nat.cast_ofNat] at h
  rw [← zpow_add₀ (by norm_num : (2 : ℚ) ≠ 0)]
  have e : Int.log 2 (max |x| ((2 : ℚ) ^ (-1022 : ℤ))) - 52 + 53
      = Int.log 2 (max |x| ((2 : ℚ) ^ (-1022 : ℤ))) + 1 := by ring
  rw [e]
  exact h

theorem ulp_of_small (x : ℚ) (h : |x| ≤ (2 : ℚ) ^ (-1022 : ℤ)) :
    ulp x = (2 : ℚ) ^ (-1074 : ℤ) := by
  unfold ulp
  rw [max_eq_right h]
  have := Int.log_zpow (R := ℚ) (b := 2) (by norm_num) (-1022)
  rw [Nat.cast_ofNat] at this
  rw [this]
  norm_num

theorem ulp_of_normal (x : ℚ) (b : ℤ) (hb : -1022 ≤ b) (h1 : (2 : ℚ) ^ b ≤ |x|)
    (h2 : |x| < (2 : ℚ) ^ (b + 1)) : ulp x = (2 : ℚ) ^ (b - 52) := by
  unfold ulp
  have hm : (2 : ℚ) ^ (-1022 : ℤ) ≤ |x| :=
    le_trans (zpow_le_zpow_right₀ (by norm_num) hb) h1
  rw [max_eq_left hm]
  have hpos : (0 : ℚ) < |x| := lt_of_lt_of_le (zpow_pos (by norm_num) _) h1
  have hl : Int.log 2 |x| = b := by
    apply le_antisymm
    · have := (Int.lt_zpow_iff_log_lt (R := ℚ) (b := 2) (by norm_num) hpos (x := b + 1)).mp
        (by rw [Nat.cast_ofNat]; exact h2)
      omega
    · exact (Int.zpow_le_iff_le_log (R := ℚ) (b := 2) (by norm_num) hpos).mp
        (by rw [Nat.cast_ofNat]; exact h1)
  rw [hl]

theorem round_half_even_err (y : ℚ) : |(round_half_even y : ℚ) - y| ≤ 1 / 2 := by
  have h0 := Int.floor_le y
  have h1 := Int.lt_floor_add_one y
  unfold round_half_even
  rw [abs_le]
  split_ifs with a b c
  · constructor <;> linarith
  · push_cast
    constructor <;> linarith
  · have : y - ⌊y⌋ = 1 / 2 := le_antisymm (not_lt.mp b) (not_lt.mp a)
    constructor <;> linarith
  · have : y - ⌊y⌋ = 1 / 2 := le_antisymm (not_lt.mp b) (not_lt.mp a)
    push_cast
    constructor <;> linarith

theorem round_half_even_nonneg (y : ℚ) (hy : 0 ≤ y) : 0 ≤ round_half_even y := by
  have hf : 0 ≤ ⌊y⌋ := Int.floor_nonneg.mpr hy
  unfold round_half_even
  split_ifs <;> linarith

theorem round_half_even_eq_zero_iff (y : ℚ) (hy : 0 ≤ y) :
    round_half_even y = 0 ↔ y ≤ 1 / 2 := by
  constructor
  · intro h
    have := round_half_even_err y
    rw [h, abs_le] at this
    push_cast at this
    linarith [this.1]
  · intro h
    have hf : ⌊y⌋ = 0 := Int.floor_eq_iff.mpr ⟨by simpa using hy, by push_cast; linarith⟩
    unfold round_half_even
    rw [hf]
    split_ifs with a b c
    · rfl
    · exfalso
      push_cast at b
      linarith
    · rfl
    · exact absurd (by decide) c

theorem round_half_even_int (n : ℤ) : round_half_even (n : ℚ) = n := by
  unfold round_half_even
  rw [Int.floor_intCast]
  have : ((n : ℚ) - (n : ℚ)) < 1 / 2 := by rw [sub_self]; norm_num
  rw [if_pos this]

theorem nearest_err (x : ℚ) : |nearest x - x| ≤ ulp x / 2 := by
  have hu := ulp_pos x
  have h := round_half_even_err (x / ulp x)
  unfold nearest
  have e : (round_half_even (x / ulp x) : ℚ) * ulp x - x
      = ((round_half_even (x / ulp x) : ℚ) - x / ulp x) * ulp x := by
    field_simp
  rw [e, abs_mul, abs_of_pos hu]
  calc |(round_half_even (x / ulp x) : ℚ) - x / ulp x| * ulp x
      ≤ 1 / 2 * ulp x := mul_le_mul_of_nonneg_right h (le_of_lt hu)
    _ = ulp x / 2 := by ring

theorem nearest_nonneg (x : ℚ) (hx : 0 ≤ x) : 0 ≤ nearest x := by
  unfold nearest
  have hu := ulp_pos x
  have : 0 ≤ round_half_even (x / ulp x) :=
    round_half_even_nonneg _ (div_nonneg hx (le_of_lt hu))
  exact mul_nonneg (by exact_mod_cast this) (le_of_lt hu)

theorem nearest_eq_zero_iff (x : ℚ) (hx : 0 ≤ x) :
    nearest x = 0 ↔ x ≤ (2 : ℚ) ^ (-1075 : ℤ) := by
  have hu := ulp_pos x
  have hstep : nearest x = 0 ↔ x ≤ ulp x / 2 := by
    unfold nearest
    rw [mul_eq_zero]
    constructor
    · rintro (h | h)
      · have h' : round_half_even (x / ulp x) = 0 := by exact_mod_cast h
        have := (round_half_even_eq_zero_iff _ (div_nonneg hx (le_of_lt hu))).mp h'
        rw [div_le_iff₀ hu] at this
        linarith
      · exact absurd h (ne_of_gt hu)
    · intro h
      left
      have : x / ulp x ≤ 1 / 2 := by
        rw [div_le_iff₀ hu]
        linarith
      have := (round_half_even_eq_zero_iff _ (div_nonneg hx (le_of_lt hu))).mpr this
      exact_mod_cast this
  rw [hstep]
  have habs : |x| = x := abs_of_nonneg hx
  by_cases hs : x ≤ (2 : ℚ) ^ (-1022 : ℤ)
  · rw [ulp_of_small x (by rw [habs]; exact hs)]
    have e : (2 : ℚ) ^ (-1074 : ℤ) / 2 = (2 : ℚ) ^ (-1075 : ℤ) := by norm_num
    rw [e]
  · have hs' : (2 : ℚ) ^ (-1022 : ℤ) < x := not_le.mp hs
    have hle := ulp_le x
    rw [habs, max_eq_left (le_of_lt hs')] at hle
    have h52 : (2 : ℚ) ^ (-52 : ℤ) / 2 < 1 := by norm_num
    have hxpos : 0 < x := lt_trans (zpow_pos (by norm_num) _) hs'
    constructor
    · intro h
      exfalso
      have : x ≤ x * ((2 : ℚ) ^ (-52 : ℤ) / 2) := by
        calc x ≤ ulp x / 2 := h
          _ ≤ x * 2 ^ (-52 : ℤ) / 2 := (div_le_div_iff_of_pos_right (by norm_num : (0 : ℚ) < 2)).mpr hle
          _ = x * ((2 : ℚ) ^ (-52 : ℤ) / 2) := by ring
      nlinarith
    · intro h
      exfalso
      have : (2 : ℚ) ^ (-1075 : ℤ) < (2 : ℚ) ^ (-1022 : ℤ) := by norm_num
      linarith

theorem nearest_bound (x : ℚ) (hx : 0 ≤ x) :
    |nearest x - x| ≤ x * (2 : ℚ) ^ (-53 : ℤ) + (2 : ℚ) ^ (-1075 : ℤ) := by
  have h := nearest_err x
  have hle := ulp_le x
  rw [abs_of_nonneg hx] at hle
  have hm : max x ((2 : ℚ) ^ (-1022 : ℤ)) ≤ x + (2 : ℚ) ^ (-1022 : ℤ) :=
    max_le (le_add_of_nonneg_right (le_of_lt (zpow_pos (by norm_num) _)))
      (le_add_of_nonneg_left hx)
  have h52 : (0 : ℚ) ≤ (2 : ℚ) ^ (-52 : ℤ) := le_of_lt (zpow_pos (by norm_num) _)
  have e1 : (2 : ℚ) ^ (-52 : ℤ) / 2 = (2 : ℚ) ^ (-53 : ℤ) := by norm_num
  have e2 : (2 : ℚ) ^ (-1022 : ℤ) * (2 : ℚ) ^ (-52 : ℤ) / 2 = (2 : ℚ) ^ (-1075 : ℤ) := by
    norm_num
  calc |nearest x - x| ≤ ulp x / 2 := h
    _ ≤ (x + (2 : ℚ) ^ (-1022 : ℤ)) * 2 ^ (-52 : ℤ) / 2 :=
        (div_le_div_iff_of_pos_right (by norm_num : (0 : ℚ) < 2)).mpr
          (le_trans hle (mul_le_mul_of_nonneg_right hm h52))
    _ = x * ((2 : ℚ) ^ (-52 : ℤ) / 2) + (2 : ℚ) ^ (-1022 : ℤ) * (2 : ℚ) ^ (-52 : ℤ) / 2 := by
        ring
    _ = x * (2 : ℚ) ^ (-53 : ℤ) + (2 : ℚ) ^ (-1075 : ℤ) := by rw [e1, e2]

theorem floor_le_round_half_even (y : ℚ) : ⌊y⌋ ≤ round_half_even y := by
  unfold round_half_even
  split_ifs <;> linarith

theorem round_half_even_eq_of_near (y : ℚ) (n : ℤ) (h : |y - n| < 1 / 2) :
    round_half_even y = n := by
  have h1 := round_half_even_err y
  rw [abs_le] at h1
  rw [abs_lt] at h
  have a : ((round_half_even y - n : ℤ) : ℚ) < 1 := by push_cast; linarith [h1.2, h.1]
  have b : (-1 : ℚ) < ((round_half_even y - n : ℤ) : ℚ) := by push_cast; linarith [h1.1, h.2]
  have a' : round_half_even y - n < 1 := by exact_mod_cast a
  have b' : -1 < round_half_even y - n := by exact_mod_cast b
  omega

theorem Dbl.gt_fin (q c : ℚ) : (Dbl.fin q).gt c = true ↔ q > c := by
  simp only [Dbl.gt, decide_eq_true_eq]

theorem round_double_of_lt (x : ℚ) (h1 : nearest x < 2 ^ 1024) (h2 : -2 ^ 1024 < nearest x) :
    round_double x = .fin (nearest x) := by
  unfold round_double
  rw [if_neg (not_le.mpr h1), if_neg (not_le.mpr h2)]

theorem round_double_zero : round_double 0 = .fin 0 := by
  have h : nearest 0 = 0 := (nearest_eq_zero_iff 0 le_rfl).mpr (le_of_lt (zpow_pos (by norm_num) _))
  rw [round_double_of_lt 0 (by rw [h]; norm_num) (by rw [h]; norm_num), h]

theorem round_double_nonneg_cases (x : ℚ) (hx : 0 ≤ x) :
    round_double x = .pinf ∨ round_double x = .fin (nearest x) := by
  unfold round_double
  by_cases h : nearest x ≥ 2 ^ 1024
  · left
    rw [if_pos h]
  · right
    have h2 : ¬ nearest x ≤ -2 ^ 1024 := by
      have := nearest_nonneg x hx
      intro hc
      have : (0 : ℚ) < 2 ^ 1024 := by norm_num
      linarith
    rw [if_neg h, if_neg h2]

theorem round_double_fin_of_nonneg (x q : ℚ) (hx : 0 ≤ x) (h : round_double x = .fin q) :
    q = nearest x := by
  rcases round_double_nonneg_cases x hx with h1 | h1
  · rw [h1] at h
    exact Dbl.noConfusion h
  · rw [h1] at h
    exact (Dbl.fin.inj h).symm

theorem round_double_eq_zero_iff (x : ℚ) (hx : 0 ≤ x) :
    round_double x = .fin 0 ↔ x ≤ (2 : ℚ) ^ (-1075 : ℤ) := by
  constructor
  · intro h
    have := round_double_fin_of_nonneg x 0 hx h
    exact (nearest_eq_zero_iff x hx).mp this.symm
  · intro h
    have h0 := (nearest_eq_zero_iff x hx).mpr h
    rw [round_double_of_lt x (by rw [h0]; norm_num) (by rw [h0]; norm_num), h0]

theorem round_double_gt_zero_iff (x : ℚ) (hx : 0 ≤ x) :
    (round_double x).gt 0 = true ↔ (2 : ℚ) ^ (-1075 : ℤ) < x := by
  have hn := nearest_nonneg x hx
  have hz := nearest_eq_zero_iff x hx
  rcases round_double_nonneg_cases x hx with h1 | h1
  · rw [h1]
    simp only [Dbl.gt, true_iff]
    by_contra hc
    have h0 := (round_double_eq_zero_iff x hx).mpr (not_lt.mp hc)
    rw [h1] at h0
    exact Dbl.noConfusion h0
  · rw [h1, Dbl.gt_fin]
    constructor
    · intro hpos
      by_contra hc
      have := hz.mpr (not_lt.mp hc)
      rw [this] at hpos
      exact lt_irrefl _ hpos
    · intro hlt
      have hne : nearest x ≠ 0 := fun h0 => absurd (hz.mp h0) (not_le.mpr hlt)
      exact lt_of_le_of_ne hn (Ne.symm hne)

theorem round_double_fin_of_le (x : ℚ) (hx : 0 ≤ x) (hle : x ≤ 2 ^ 1023) :
    round_double x = .fin (nearest x) ∧ 0 ≤ nearest x ∧
      |nearest x - x| ≤ x * (2 : ℚ) ^ (-53 : ℤ) + (2 : ℚ) ^ (-1075 : ℤ) := by
  have hb := nearest_bound x hx
  have hn := nearest_nonneg x hx
  refine ⟨round_double_of_lt x ?_ ?_, hn, hb⟩
  · rw [abs_le] at hb
    have h1 : nearest x ≤ x + (x * (2 : ℚ) ^ (-53 : ℤ) + (2 : ℚ) ^ (-1075 : ℤ)) := by
      linarith [hb.2]
    have h2 : x * (2 : ℚ) ^ (-53 : ℤ) ≤ 2 ^ 1023 * (2 : ℚ) ^ (-53 : ℤ) :=
      mul_le_mul_of_nonneg_right hle (le_of_lt (zpow_pos (by norm_num) _))
    have h3 : (2 : ℚ) ^ 1023 + (2 ^ 1023 * (2 : ℚ) ^ (-53 : ℤ) + (2 : ℚ) ^ (-1075 : ℤ))
        < 2 ^ 1024 := by norm_num
    linarith
  · have : (0 : ℚ) < 2 ^ 1024 := by norm_num
    linarith

theorem round_double_exact (x : ℚ) (m k : ℤ) (hx : x = (m : ℚ) * (2 : ℚ) ^ k)
    (hm : |m| < 2 ^ 53) (hk : -1074 ≤ k) (hlt : |x| < 2 ^ 1024) :
    round_double x = .fin x := by
  have hu := ulp_pos x
  have h2 : (2 : ℚ) ≠ 0 := by norm_num
  -- the unit in the last place is at most 2 ^ k
  have hmq : |(m : ℚ)| < 2 ^ 53 := by
    have : ((|m| : ℤ) : ℚ) < ((2 ^ 53 : ℤ) : ℚ) := by exact_mod_cast hm
    simpa only [Int.cast_abs, Int.cast_pow, Int.cast_ofNat] using this
  have hk2 : (0 : ℚ) < (2 : ℚ) ^ k := zpow_pos (by norm_num) _
  have habs : |x| < (2 : ℚ) ^ (k + 53) := by
    rw [hx, abs_mul, abs_of_pos hk2, zpow_add₀ h2, mul_comm ((2 : ℚ) ^ k)]
    have : ((2 : ℚ) ^ (53 : ℤ)) = 2 ^ 53 := by norm_num
    rw [this]
    exact mul_lt_mul_of_pos_right hmq hk2
  have hmin : (2 : ℚ) ^ (-1022 : ℤ) < (2 : ℚ) ^ (k + 53) :=
    (zpow_lt_zpow_iff_right₀ (by norm_num : (1 : ℚ) < 2)).mpr (by omega)
  have hM : max |x| ((2 : ℚ) ^ (-1022 : ℤ)) < (2 : ℚ) ^ (k + 53) := max_lt habs hmin
  have hL : Int.log 2 (max |x| ((2 : ℚ) ^ (-1022 : ℤ))) < k + 53 := by
    have := (Int.lt_zpow_iff_log_lt (R := ℚ) (b := 2) (by norm_num) (clamp_pos x)
      (x := k + 53)).mp (by rw [Nat.cast_ofNat]; exact hM)
    exact this
  obtain ⟨j, hj⟩ : ∃ j : ℕ, k = (Int.log 2 (max |x| ((2 : ℚ) ^ (-1022 : ℤ))) - 52) + (j : ℤ) :=
    ⟨(k - (Int.log 2 (max |x| ((2 : ℚ) ^ (-1022 : ℤ))) - 52)).toNat, by omega⟩
  have hulp : ulp x = (2 : ℚ) ^ (k - (j : ℤ)) := by
    unfold ulp
    congr 1
    omega
  have hxu : x = ((m * 2 ^ j : ℤ) : ℚ) * ulp x := by
    rw [hulp, zpow_sub₀ h2, zpow_natCast]
    push_cast
    rw [hx]
    field_simp
    ring
  have hnear : nearest x = x := by
    unfold nearest
    have : x / ulp x = ((m * 2 ^ j : ℤ) : ℚ) := by
      rw [div_eq_iff (ne_of_gt hu)]
      exact hxu
    rw [this, round_half_even_int]
    exact hxu.symm
  rw [abs_lt] at hlt
  rw [round_double_of_lt x (by rw [hnear]; exact hlt.2) (by rw [hnear]; exact hlt.1), hnear]

theorem round_double_eval (x : ℚ) (b n : ℤ) (hb : -1022 ≤ b) (h1 : (2 : ℚ) ^ b ≤ |x|)
    (h2 : |x| < (2 : ℚ) ^ (b + 1)) (hn : |x / (2 : ℚ) ^ (b - 52) - n| < 1 / 2)
    (hlt : |(n : ℚ) * (2 : ℚ) ^ (b - 52)| < 2 ^ 1024) :
    round_double x = .fin ((n : ℚ) * (2 : ℚ) ^ (b - 52)) := by
  have hu := ulp_of_normal x b hb h1 h2
  have hnear : nearest x = (n : ℚ) * (2 : ℚ) ^ (b - 52) := by
    unfold nearest
    rw [hu, round_half_even_eq_of_near _ n hn]
  rw [abs_lt] at hlt
  rw [round_double_of_lt x (by rw [hnear]; exact hlt.2) (by rw [hnear]; exact hlt.1), hnear]

theorem round_double_overflow (x : ℚ) (hx : (2 : ℚ) ^ 1024 ≤ x) : round_double x = .pinf := by
  have h0 : (0 : ℚ) < 2 ^ 1024 := by norm_num
  have hxpos : 0 < x := lt_of_lt_of_le h0 hx
  have hu := ulp_pos x
  have hlt := lt_ulp x
  rw [abs_of_pos hxpos] at hlt
  have hmin : (2 : ℚ) ^ (-1022 : ℤ) ≤ x := le_trans (by norm_num) hx
  rw [max_eq_left hmin] at hlt
  -- the quotient by the unit in the last place is at least 2 ^ 52
  have hxz : (2 : ℚ) ^ (1024 : ℤ) ≤ x := by
    have e : (2 : ℚ) ^ (1024 : ℤ) = 2 ^ 1024 := by norm_num
    rw [e]
    exact hx
  have hL : (1024 : ℤ) ≤ Int.log 2 (max |x| ((2 : ℚ) ^ (-1022 : ℤ))) := by
    rw [abs_of_pos hxpos, max_eq_left hmin]
    exact (Int.zpow_le_iff_le_log (R := ℚ) (b := 2) (by norm_num) hxpos).mp
      (by rw [Nat.cast_ofNat]; exact hxz)
  have hule : (2 : ℚ) ^ (972 : ℤ) ≤ ulp x := by
    unfold ulp
    exact zpow_le_zpow_right₀ (by norm_num) (by omega)
  have hq : ((2 ^ 52 : ℤ) : ℚ) ≤ x / ulp x := by
    rw [le_div_iff₀ hu]
    have hle := ulp_le x
    rw [abs_of_pos hxpos, max_eq_left hmin] at hle
    have e : x * (2 : ℚ) ^ (-52 : ℤ) = x / 2 ^ 52 := by
      rw [zpow_neg, div_eq_mul_inv]
      norm_num
    rw [e, le_div_iff₀ (by norm_num)] at hle
    push_cast
    linarith
  have hfl : (2 ^ 52 : ℤ) ≤ ⌊x / ulp x⌋ := Int.le_floor.mpr hq
  have hr := le_trans hfl (floor_le_round_half_even _)
  have hrq : ((2 ^ 52 : ℤ) : ℚ) ≤ (round_half_even (x / ulp x) : ℚ) := by exact_mod_cast hr
  have hnear : (2 : ℚ) ^ 1024 ≤ nearest x := by
    unfold nearest
    calc (2 : ℚ) ^ 1024 = ((2 ^ 52 : ℤ) : ℚ) * (2 : ℚ) ^ (972 : ℤ) := by norm_num
      _ ≤ (round_half_even (x / ulp x) : ℚ) * ulp x :=
        mul_le_mul hrq hule (le_of_lt (zpow_pos (by norm_num) _))
          (le_trans (by norm_num) hrq)
  unfold round_double
  rw [if_pos hnear]

theorem round_double_of_is_double (x : ℚ) (h : IsDouble x) : round_double x = .fin x := by
  obtain ⟨m, k, hm, hk1, hk2, hx⟩ := h
  refine round_double_exact x m k hx hm hk1 ?_
  have hmq : |(m : ℚ)| < 2 ^ 53 := by
    have : ((|m| : ℤ) : ℚ) < ((2 ^ 53 : ℤ) : ℚ) := by exact_mod_cast hm
    simpa only [Int.cast_abs, Int.cast_pow, Int.cast_ofNat] using this
  have hk0 : (0 : ℚ) < (2 : ℚ) ^ k := zpow_pos (by norm_num) _
  have hkle : (2 : ℚ) ^ k ≤ (2 : ℚ) ^ (971 : ℤ) := zpow_le_zpow_right₀ (by norm_num) hk2
  rw [hx, abs_mul, abs_of_pos hk0]
  calc |(m : ℚ)| * (2 : ℚ) ^ k ≤ |(m : ℚ)| * (2 : ℚ) ^ (971 : ℤ) :=
        mul_le_mul_of_nonneg_left hkle (abs_nonneg _)
    _ < 2 ^ 53 * (2 : ℚ) ^ (971 : ℤ) :=
        mul_lt_mul_of_pos_right hmq (zpow_pos (by norm_num) _)
    _ = 2 ^ 1024 := by norm_num

/-! ## The calculation: ratios, validation and report -/

theorem validation_error_eq_none_iff (revenue avg_assets equity_capital debt_capital : ℚ)
    (period_days : ℤ) :
    validation_error revenue avg_assets equity_capital debt_capital period_days = none ↔
      Valid revenue avg_assets equity_capital debt_capital period_days := by
  unfold validation_error Valid
  constructor
  · intro h
    split_ifs at h with h1 h2 h3 h4 h5
    simp only [not_or, not_lt] at h1 h2 h3 h4 h5
    tauto
  · rintro ⟨⟨a1, a2⟩, ⟨b1, b2⟩, ⟨c1, c2⟩, ⟨d1, d2⟩, e1, e2⟩
    have h1 : ¬ (revenue < 0 ∨ revenue > 1000000000000) := by
      simp only [not_or, not_lt, gt_iff_lt]; exact ⟨a1, a2⟩
    have h2 : ¬ (avg_assets < 1 / 100 ∨ avg_assets > 1000000000000) := by
      simp only [not_or, not_lt, gt_iff_lt]; exact ⟨b1, b2⟩
    have h3 : ¬ (equity_capital < 0 ∨ equity_capital > 1000000000000) := by
      simp only [not_or, not_lt, gt_iff_lt]; exact ⟨c1, c2⟩
    have h4 : ¬ (debt_capital < 0 ∨ debt_capital > 1000000000000) := by
      simp only [not_or, not_lt, gt_iff_lt]; exact ⟨d1, d2⟩
    have h5 : ¬ (period_days < 1 ∨ period_days > 366) := by
      simp only [not_or, not_lt, gt_iff_lt]; exact ⟨e1, e2⟩
    rw [if_neg h1, if_neg h2, if_neg h3, if_neg h4, if_neg h5]

theorem validation_error_is_error (revenue avg_assets equity_capital debt_capital : ℚ)
    (period_days : ℤ) (e : Out)
    (h : validation_error revenue avg_assets equity_capital debt_capital period_days = some e) :
    e.isValidationError = true ∧ e.isResultLine = false := by
  unfold validation_error at h
  split_ifs at h <;> simp only [Option.some.injEq, reduceCtorEq] at h <;> subst h <;>
    exact ⟨rfl, rfl⟩

theorem calculate_turnover_of_valid (revenue avg_assets equity_capital debt_capital : ℚ)
    (period_days : ℤ) (h : Valid revenue avg_assets equity_capital debt_capital period_days) :
    calculate_turnover revenue avg_assets equity_capital debt_capital period_days =
      print_results
        (compute_ratios revenue avg_assets equity_capital debt_capital period_days) := by
  unfold calculate_turnover
  rw [(validation_error_eq_none_iff _ _ _ _ _).mpr h]

theorem calculate_turnover_of_error (revenue avg_assets equity_capital debt_capital : ℚ)
    (period_days : ℤ) (e : Out)
    (h : validation_error revenue avg_assets equity_capital debt_capital period_days = some e) :
    calculate_turnover revenue avg_assets equity_capital debt_capital period_days = [e] := by
  unfold calculate_turnover
  rw [h]

theorem print_results_no_error (r : Ratios) :
    ∀ o ∈ print_results r, o.isValidationError = false ∧ o.isResultLine = true := by
  intro o ho
  unfold print_results at ho
  simp only [List.mem_append, List.mem_cons, List.mem_singleton, List.not_mem_nil,
    or_false] at ho
  rcases ho with ((((((h | h) | h) | h) | h) | h) | h) | h
  · rcases h with h | h <;> subst h <;> exact ⟨rfl, rfl⟩
  · split_ifs at h <;> simp only [List.mem_singleton] at h <;> subst h <;> exact ⟨rfl, rfl⟩
  · split_ifs at h <;> simp only [List.mem_singleton] at h <;> subst h <;> exact ⟨rfl, rfl⟩
  · split_ifs at h <;> simp only [List.mem_singleton] at h <;> subst h <;> exact ⟨rfl, rfl⟩
  · rcases h with h | h <;> subst h <;> exact ⟨rfl, rfl⟩
  · split_ifs at h
    · simp only [List.mem_singleton] at h; subst h; exact ⟨rfl, rfl⟩
    · simp at h
  · split_ifs at h
    · simp only [List.mem_singleton] at h; subst h; exact ⟨rfl, rfl⟩
    · simp at h
  · subst h; exact ⟨rfl, rfl⟩

theorem asset_turnover_of_valid (revenue avg_assets equity_capital debt_capital : ℚ)
    (period_days : ℤ) (h : Valid revenue avg_assets equity_capital debt_capital period_days) :
    (compute_ratios revenue avg_assets equity_capital debt_capital period_days).asset_turnover
      = round_double (revenue / avg_assets) := by
  have hpos : avg_assets > 0 := by
    have := h.2.1.1
    linarith
  simp only [compute_ratios, if_pos hpos]

theorem equity_turnover_of_pos (revenue avg_assets equity_capital debt_capital : ℚ)
    (period_days : ℤ) (h : 0 < equity_capital) :
    (compute_ratios revenue avg_assets equity_capital debt_capital period_days).equity_turnover
      = round_double (revenue / equity_capital) := by
  have h' : equity_capital > 0 := h
  simp only [compute_ratios, if_pos h']

theorem debt_turnover_of_pos (revenue avg_assets equity_capital debt_capital : ℚ)
    (period_days : ℤ) (h : 0 < debt_capital) :
    (compute_ratios revenue avg_assets equity_capital debt_capital period_days).debt_turnover
      = round_double (revenue / debt_capital) := by
  have h' : debt_capital > 0 := h
  simp only [compute_ratios, if_pos h']

theorem equity_turnover_of_not_pos (revenue avg_assets equity_capital debt_capital : ℚ)
    (period_days : ℤ) (h : ¬ 0 < equity_capital) :
    (compute_ratios revenue avg_assets equity_capital debt_capital period_days).equity_turnover
      = .fin 0 := by
  have h' : ¬ equity_capital > 0 := h
  simp only [compute_ratios, if_neg h']

theorem debt_turnover_of_not_pos (revenue avg_assets equity_capital debt_capital : ℚ)
    (period_days : ℤ) (h : ¬ 0 < debt_capital) :
    (compute_ratios revenue avg_assets equity_capital debt_capital period_days).debt_turnover
      = .fin 0 := by
  have h' : ¬ debt_capital > 0 := h
  simp only [compute_ratios, if_neg h']

theorem turnover_period_eq (revenue avg_assets equity_capital debt_capital : ℚ)
    (period_days : ℤ) :
    (compute_ratios revenue avg_assets equity_capital debt_capital period_days).turnover_period
      = if (compute_ratios revenue avg_assets equity_capital debt_capital
              period_days).asset_turnover.gt 0
        then div_double (period_days : ℚ)
          (compute_ratios revenue avg_assets equity_capital debt_capital
              period_days).asset_turnover
        else .fin 0 := by
  simp only [compute_ratios]

theorem quotient_bounds (revenue avg_assets equity_capital debt_capital : ℚ)
    (period_days : ℤ) (h : Valid revenue avg_assets equity_capital debt_capital period_days) :
    0 ≤ revenue / avg_assets ∧ revenue / avg_assets ≤ 100000000000000 := by
  have hpos : (0 : ℚ) < avg_assets := by
    have := h.2.1.1
    linarith
  refine ⟨div_nonneg h.1.1 (le_of_lt hpos), ?_⟩
  rw [div_le_iff₀ hpos]
  have h1 := h.1.2
  have h2 := h.2.1.1
  linarith

theorem asset_turnover_fin (revenue avg_assets equity_capital debt_capital : ℚ)
    (period_days : ℤ) (h : Valid revenue avg_assets equity_capital debt_capital period_days) :
    ∃ q : ℚ,
      (compute_ratios revenue avg_assets equity_capital debt_capital
        period_days).asset_turnover = .fin q ∧
      0 ≤ q ∧ q ≤ 300000000000000 ∧
      |q - revenue / avg_assets|
        ≤ revenue / avg_assets * (2 : ℚ) ^ (-53 : ℤ) + (2 : ℚ) ^ (-1075 : ℤ) ∧
      (q = 0 ↔ revenue / avg_assets ≤ (2 : ℚ) ^ (-1075 : ℤ)) := by
  obtain ⟨h0, h1⟩ := quotient_bounds _ _ _ _ _ h
  have hle : revenue / avg_assets ≤ 2 ^ 1023 := le_trans h1 (by norm_num)
  obtain ⟨hfin, hn, hb⟩ := round_double_fin_of_le _ h0 hle
  refine ⟨nearest (revenue / avg_assets), ?_, hn, ?_, hb, nearest_eq_zero_iff _ h0⟩
  · rw [asset_turnover_of_valid _ _ _ _ _ h, hfin]
  · rw [abs_le] at hb
    have e1 : (2 : ℚ) ^ (-53 : ℤ) ≤ 1 := by norm_num
    have e2 : (2 : ℚ) ^ (-1075 : ℤ) ≤ 1 := by norm_num
    have e3 : revenue / avg_assets * (2 : ℚ) ^ (-53 : ℤ) ≤ revenue / avg_assets * 1 :=
      mul_le_mul_of_nonneg_left e1 h0
    linarith [hb.2]

theorem turnover_period_gt_zero_iff (revenue avg_assets equity_capital debt_capital : ℚ)
    (period_days : ℤ) (h : Valid revenue avg_assets equity_capital debt_capital period_days) :
    ((compute_ratios revenue avg_assets equity_capital debt_capital
        period_days).turnover_period.gt 0 = true
      ↔ (compute_ratios revenue avg_assets equity_capital debt_capital
          period_days).asset_turnover ≠ .fin 0) ∧
    ((compute_ratios revenue avg_assets equity_capital debt_capital
        period_days).asset_turnover ≠ .fin 0 →
      ∃ q : ℚ, 0 < q ∧
        (compute_ratios revenue avg_assets equity_capital debt_capital
          period_days).asset_turnover = .fin q ∧
        (compute_ratios revenue avg_assets equity_capital debt_capital
          period_days).turnover_period = round_double ((period_days : ℚ) / q) ∧
        (compute_ratios revenue avg_assets equity_capital debt_capital
          period_days).turnover_period
          = div_double (period_days : ℚ)
              (compute_ratios revenue avg_assets equity_capital debt_capital
                period_days).asset_turnover) := by
  obtain ⟨q, hq, hq0, hq1, -, -⟩ := asset_turnover_fin _ _ _ _ _ h
  have hp : (1 : ℚ) ≤ (period_days : ℚ) := by
    have h1 : (1 : ℤ) ≤ period_days := h.2.2.2.2.1
    exact_mod_cast h1
  have key : q ≠ 0 →
      (compute_ratios revenue avg_assets equity_capital debt_capital
          period_days).turnover_period = round_double ((period_days : ℚ) / q) ∧
      (round_double ((period_days : ℚ) / q)).gt 0 = true := by
    intro hne
    have hqpos : 0 < q := lt_of_le_of_ne hq0 (Ne.symm hne)
    have hgt : (Dbl.fin q).gt 0 = true := (Dbl.gt_fin q 0).mpr hqpos
    refine ⟨by rw [turnover_period_eq, hq, if_pos hgt]; rfl, ?_⟩
    have hx0 : 0 ≤ (period_days : ℚ) / q := div_nonneg (by linarith) hq0
    rw [round_double_gt_zero_iff _ hx0, lt_div_iff₀ hqpos]
    have e : (2 : ℚ) ^ (-1075 : ℤ) * 300000000000000 < 1 := by norm_num
    have : (2 : ℚ) ^ (-1075 : ℤ) * q ≤ (2 : ℚ) ^ (-1075 : ℤ) * 300000000000000 :=
      mul_le_mul_of_nonneg_left hq1 (le_of_lt (zpow_pos (by norm_num) _))
    linarith
  constructor
  · constructor
    · intro hgt hz
      rw [turnover_period_eq, hz] at hgt
      simp [Dbl.gt] at hgt
    · intro hne
      have hq' : q ≠ 0 := by
        intro h0
        rw [h0] at hq
        exact hne hq
      obtain ⟨e1, e2⟩ := key hq'
      rw [e1]
      exact e2
  · intro hne
    have hq' : q ≠ 0 := by
      intro h0
      rw [h0] at hq
      exact hne hq
    have hqpos : 0 < q := lt_of_le_of_ne hq0 (Ne.symm hq')
    obtain ⟨e1, -⟩ := key hq'
    refine ⟨q, hqpos, hq, e1, ?_⟩
    rw [e1, hq]
    rfl

theorem mem_print_results (r : Ratios) (o : Out) :
    o ∈ print_results r ↔
      o = .resultsHeader ∨ o = .assetTurnover r.asset_turnover ∨
      (r.equity_turnover.gt 0 = true ∧ o = .equityTurnover r.equity_turnover) ∨
      (¬ r.equity_turnover.gt 0 = true ∧ o = .equityNotComputed) ∨
      (r.debt_turnover.gt 0 = true ∧ o = .debtTurnover r.debt_turnover) ∨
      (¬ r.debt_turnover.gt 0 = true ∧ o = .debtNotComputed) ∨
      (r.turnover_period.gt 0 = true ∧ o = .turnoverPeriod r.turnover_period) ∨
      (¬ r.turnover_period.gt 0 = true ∧ o = .periodNotComputed) ∨
      o = .analysisHeader ∨ o = .assetAnalysis (interpret_turnover r.asset_turnover) ∨
      (r.equity_turnover.gt 0 = true ∧
        o = .equityAnalysis (interpret_turnover r.equity_turnover)) ∨
      (r.debt_turnover.gt 0 = true ∧ o = .debtAnalysis (interpret_turnover r.debt_turnover)) ∨
      o = .advice := by
  unfold print_results
  by_cases he : r.equity_turnover.gt 0 = true <;> by_cases hd : r.debt_turnover.gt 0 = true <;>
    by_cases hp : r.turnover_period.gt 0 = true <;>
    simp only [he, hd, hp, Bool.false_eq_true, if_true, if_false, List.mem_append,
      List.mem_cons, List.mem_singleton, List.not_mem_nil, or_false, true_and, false_and,
      not_true_eq_false, not_false_eq_true, false_or, or_assoc]

theorem round_double_fin_bound (x q : ℚ) (hx : 0 ≤ x) (h : round_double x = .fin q) :
    |q - x| ≤ x * (2 : ℚ) ^ (-53 : ℤ) + (2 : ℚ) ^ (-1075 : ℤ) := by
  rw [round_double_fin_of_nonneg x q hx h]
  exact nearest_bound x hx

theorem test1_valid : Valid 2000000 1000000 500000 300000 365 := by
  unfold Valid; norm_num

theorem test1_asset_turnover :
    (compute_ratios 2000000 1000000 500000 300000 365).asset_turnover = .fin 2 := by
  rw [asset_turnover_of_valid _ _ _ _ _ test1_valid]
  have e : (2000000 : ℚ) / 1000000 = 2 := by norm_num
  rw [e]
  exact round_double_exact 2 1 1 (by norm_num) (by decide) (by norm_num) (by norm_num)

theorem test1_equity_turnover :
    (compute_ratios 2000000 1000000 500000 300000 365).equity_turnover = .fin 4 := by
  rw [equity_turnover_of_pos _ _ _ _ _ (by norm_num)]
  have e : (2000000 : ℚ) / 500000 = 4 := by norm_num
  rw [e]
  exact round_double_exact 4 1 2 (by norm_num) (by decide) (by norm_num) (by norm_num)

theorem test1_debt_turnover :
    (compute_ratios 2000000 1000000 500000 300000 365).debt_turnover
      = .fin (7505999378950827 / 1125899906842624) := by
  rw [debt_turnover_of_pos _ _ _ _ _ (by norm_num)]
  have e : (2000000 : ℚ) / 300000 = 20 / 3 := by norm_num
  rw [e]
  have hpos : |(20 : ℚ) / 3| = 20 / 3 := abs_of_pos (by norm_num)
  have hv := round_double_eval (20 / 3) 2 7505999378950827 (by norm_num)
    (by rw [hpos]; norm_num) (by rw [hpos]; norm_num)
    (by rw [abs_lt]; constructor <;> norm_num)
    (by rw [abs_lt]; constructor <;> norm_num)
  rw [hv]
  congr 1
  norm_num

/-- C1 (counterexample): at self-test 1 (2000000, 1000000, 500000, 300000, 365)
the input is valid and the debt capital is positive, yet the debt turnover the
code computes is not the exact quotient 2000000 / 300000 = 20/3 but the double
7505999378950827 / 2^50 next to it. -/
theorem test1_debt_turnover_is_rounded :
    Valid 2000000 1000000 500000 300000 365 ∧ (0 : ℚ) < 300000 ∧
    (compute_ratios 2000000 1000000 500000 300000 365).debt_turnover
      ≠ .fin (2000000 / 300000) ∧
    (compute_ratios 2000000 1000000 500000 300000 365).debt_turnover
      = .fin (7505999378950827 / 2 ^ 50) := by
  refine ⟨test1_valid, by norm_num, ?_, ?_⟩
  · rw [test1_debt_turnover]
    intro h
    have := Dbl.fin.inj h
    norm_num at this
  · have e : (7505999378950827 : ℚ) / 2 ^ 50 = 7505999378950827 / 1125899906842624 := by
      norm_num
    rw [e]
    exact test1_debt_turnover

/-- C1 (amended): for every input that passes validation, `calculate_turnover`
prints the report of the computed ratios, where each ratio is the exact
quotient rounded to double precision (round to nearest, ties to even): the
asset turnover is `round_double (revenue / averageAssets)`, the equity turnover
is `round_double (revenue / equityCapital)` whenever `equityCapital > 0`, the
debt turnover is `round_double (revenue / debtCapital)` whenever
`debtCapital > 0`.  The asset turnover is always finite; a finite ratio differs
from the exact quotient by at most `2^-53` of the quotient plus `2^-1075`, and
equals it whenever the quotient is itself a double.  The asset turnover line
carries the rounded quotient, and so do the equity and debt lines whenever they
carry a number. -/
theorem calculate_turnover_rounded_ratios
    (revenue averageAssets equityCapital debtCapital : ℚ) (periodDays : ℤ)
    (h : Valid revenue averageAssets equityCapital debtCapital periodDays) :
    calculate_turnover revenue averageAssets equityCapital debtCapital periodDays
      = print_results
          (compute_ratios revenue averageAssets equityCapital debtCapital periodDays) ∧
    (compute_ratios revenue averageAssets equityCapital debtCapital periodDays).asset_turnover
      = round_double (revenue / averageAssets) ∧
    (0 < equityCapital →
      (compute_ratios revenue averageAssets equityCapital debtCapital periodDays).equity_turnover
        = round_double (revenue / equityCapital)) ∧
    (0 < debtCapital →
      (compute_ratios revenue averageAssets equityCapital debtCapital periodDays).debt_turnover
        = round_double (revenue / debtCapital)) ∧
    (∃ q : ℚ,
      (compute_ratios revenue averageAssets equityCapital debtCapital
        periodDays).asset_turnover = .fin q ∧
      |q - revenue / averageAssets|
        ≤ revenue / averageAssets * (2 : ℚ) ^ (-53 : ℤ) + (2 : ℚ) ^ (-1075 : ℤ)) ∧
    (0 < equityCapital → ∀ q : ℚ,
      (compute_ratios revenue averageAssets equityCapital debtCapital
        periodDays).equity_turnover = .fin q →
      |q - revenue / equityCapital|
        ≤ revenue / equityCapital * (2 : ℚ) ^ (-53 : ℤ) + (2 : ℚ) ^ (-1075 : ℤ)) ∧
    (0 < debtCapital → ∀ q : ℚ,
      (compute_ratios revenue averageAssets equityCapital debtCapital
        periodDays).debt_turnover = .fin q →
      |q - revenue / debtCapital|
        ≤ revenue / debtCapital * (2 : ℚ) ^ (-53 : ℤ) + (2 : ℚ) ^ (-1075 : ℤ)) ∧
    (IsDouble (revenue / averageAssets) →
      (compute_ratios revenue averageAssets equityCapital debtCapital
        periodDays).asset_turnover = .fin (revenue / averageAssets)) ∧
    (0 < equityCapital → IsDouble (revenue / equityCapital) →
      (compute_ratios revenue averageAssets equityCapital debtCapital
        periodDays).equity_turnover = .fin (revenue / equityCapital)) ∧
    (0 < debtCapital → IsDouble (revenue / debtCapital) →
      (compute_ratios revenue averageAssets equityCapital debtCapital
        periodDays).debt_turnover = .fin (revenue / debtCapital)) ∧
    Out.assetTurnover (round_double (revenue / averageAssets))
      ∈ calculate_turnover revenue averageAssets equityCapital debtCapital periodDays ∧
    (∀ v, Out.equityTurnover v
        ∈ calculate_turnover revenue averageAssets equityCapital debtCapital periodDays →
      0 < equityCapital ∧ v = round_double (revenue / equityCapital)) ∧
    (∀ v, Out.debtTurnover v
        ∈ calculate_turnover revenue averageAssets equityCapital debtCapital periodDays →
      0 < debtCapital ∧ v = round_double (revenue / debtCapital)) := by
  have hcalc := calculate_turnover_of_valid _ _ _ _ _ h
  have hasset := asset_turnover_of_valid _ _ _ _ _ h
  have hrev := h.1.1
  obtain ⟨q, hq, -, -, hqb, -⟩ := asset_turnover_fin _ _ _ _ _ h
  refine ⟨hcalc, hasset, equity_turnover_of_pos _ _ _ _ _, debt_turnover_of_pos _ _ _ _ _,
    ⟨q, hq, hqb⟩, ?_, ?_, ?_, ?_, ?_, ?_, ?_, ?_⟩
  · intro he q1 hq1
    rw [equity_turnover_of_pos _ _ _ _ _ he] at hq1
    exact round_double_fin_bound _ _ (div_nonneg hrev (le_of_lt he)) hq1
  · intro hd q1 hq1
    rw [debt_turnover_of_pos _ _ _ _ _ hd] at hq1
    exact round_double_fin_bound _ _ (div_nonneg hrev (le_of_lt hd)) hq1
  · intro hdbl
    rw [hasset, round_double_of_is_double _ hdbl]
  · intro he hdbl
    rw [equity_turnover_of_pos _ _ _ _ _ he, round_double_of_is_double _ hdbl]
  · intro hd hdbl
    rw [debt_turnover_of_pos _ _ _ _ _ hd, round_double_of_is_double _ hdbl]
  · rw [hcalc, mem_print_results, hasset]
    exact Or.inr (Or.inl rfl)
  · intro v hv
    rw [hcalc, mem_print_results] at hv
    simp only [reduceCtorEq, false_or, and_false, or_false, Out.equityTurnover.injEq] at hv
    obtain ⟨hpos, hv⟩ := hv
    by_cases he : 0 < equityCapital
    · exact ⟨he, by rw [hv, equity_turnover_of_pos _ _ _ _ _ he]⟩
    · rw [equity_turnover_of_not_pos _ _ _ _ _ he] at hpos
      simp [Dbl.gt] at hpos
  · intro v hv
    rw [hcalc, mem_print_results] at hv
    simp only [reduceCtorEq, false_or, and_false, or_false, Out.debtTurnover.injEq] at hv
    obtain ⟨hpos, hv⟩ := hv
    by_cases hd : 0 < debtCapital
    · exact ⟨hd, by rw [hv, debt_turnover_of_pos _ _ _ _ _ hd]⟩
    · rw [debt_turnover_of_not_pos _ _ _ _ _ hd] at hpos
      simp [Dbl.gt] at hpos

/-- Witness of C1 (amended) at self-test 1 (2000000, 1000000, 500000, 300000,
365): the asset and equity turnover are the exact quotients 2 and 4, the debt
turnover is the double 7505999378950827 / 2^50 nearest to 20/3, and these are
the numbers printed. -/
theorem calculate_turnover_rounded_ratios_test1 :
    Valid 2000000 1000000 500000 300000 365 ∧
    (compute_ratios 2000000 1000000 500000 300000 365).asset_turnover = .fin 2 ∧
    (compute_ratios 2000000 1000000 500000 300000 365).equity_turnover = .fin 4 ∧
    (compute_ratios 2000000 1000000 500000 300000 365).debt_turnover
      = .fin (7505999378950827 / 2 ^ 50) ∧
    Out.assetTurnover (.fin 2) ∈ calculate_turnover 2000000 1000000 500000 300000 365 ∧
    Out.equityTurnover (.fin 4) ∈ calculate_turnover 2000000 1000000 500000 300000 365 ∧
    Out.debtTurnover (.fin (7505999378950827 / 2 ^ 50))
      ∈ calculate_turnover 2000000 1000000 500000 300000 365 := by
  obtain ⟨h1, h2, -, -, -, -, -, h8, h9, -, h11, -, -⟩ :=
    calculate_turnover_rounded_ratios 2000000 1000000 500000 300000 365 test1_valid
  have d1 : IsDouble ((2000000 : ℚ) / 1000000) :=
    ⟨1, 1, by decide, by norm_num, by norm_num, by norm_num⟩
  have d2 : IsDouble ((2000000 : ℚ) / 500000) :=
    ⟨1, 2, by decide, by norm_num, by norm_num, by norm_num⟩
  have a := h8 d1
  have b := h9 (by norm_num) d2
  have e1 : (2000000 : ℚ) / 1000000 = 2 := by norm_num
  have e2 : (2000000 : ℚ) / 500000 = 4 := by norm_num
  have e3 : (7505999378950827 : ℚ) / 2 ^ 50 = 7505999378950827 / 1125899906842624 := by
    norm_num
  rw [e1] at a
  rw [e2] at b
  have c := test1_debt_turnover
  rw [← e3] at c
  refine ⟨test1_valid, a, b, c, ?_, ?_, ?_⟩
  · rw [← a, h2]
    exact h11
  · rw [h1, mem_print_results, b]
    simp [Dbl.gt]
  · rw [h1, mem_print_results, c]
    simp only [reduceCtorEq, false_or, and_false, or_false, and_true, true_and, Dbl.gt_fin]
    norm_num

theorem print_results_ne_singleton (r : Ratios) (e : Out) : print_results r ≠ [e] := by
  intro h
  have hlen := congrArg List.length h
  unfold print_results at hlen
  simp only [List.length_append, List.length_cons, List.length_nil, List.length_singleton]
    at hlen
  omega

/-- C2: `calculate_turnover` prints exactly one validation message, and with it
no result line, if and only if at least one of the five preconditions fails;
it prints the full report of the computed ratios, which holds the asset
turnover line and no validation message, if and only if all five hold. -/
theorem calculate_turnover_aborts_iff_invalid
    (revenue averageAssets equityCapital debtCapital : ℚ) (periodDays : ℤ) :
    ((∃ e : Out, e.isValidationError = true ∧ e.isResultLine = false ∧
        calculate_turnover revenue averageAssets equityCapital debtCapital periodDays = [e])
      ↔ ¬ Valid revenue averageAssets equityCapital debtCapital periodDays) ∧
    ((calculate_turnover revenue averageAssets equityCapital debtCapital periodDays
        = print_results
            (compute_ratios revenue averageAssets equityCapital debtCapital periodDays) ∧
      Out.assetTurnover
          (compute_ratios revenue averageAssets equityCapital debtCapital
            periodDays).asset_turnover
        ∈ calculate_turnover revenue averageAssets equityCapital debtCapital periodDays ∧
      ∀ o ∈ calculate_turnover revenue averageAssets equityCapital debtCapital periodDays,
        o.isValidationError = false ∧ o.isResultLine = true)
      ↔ Valid revenue averageAssets equityCapital debtCapital periodDays) := by
  cases hve : validation_error revenue averageAssets equityCapital debtCapital periodDays with
  | none =>
    have hv := (validation_error_eq_none_iff _ _ _ _ _).mp hve
    have hc := calculate_turnover_of_valid _ _ _ _ _ hv
    constructor
    · constructor
      · rintro ⟨e, -, -, he⟩
        rw [hc] at he
        exact absurd he (print_results_ne_singleton _ _)
      · intro hn
        exact absurd hv hn
    · constructor
      · intro _
        exact hv
      · intro _
        refine ⟨hc, ?_, ?_⟩
        · rw [hc, mem_print_results]
          exact Or.inr (Or.inl rfl)
        · rw [hc]
          exact print_results_no_error _
  | some e =>
    have hnv : ¬ Valid revenue averageAssets equityCapital debtCapital periodDays := by
      intro hv
      rw [(validation_error_eq_none_iff _ _ _ _ _).mpr hv] at hve
      exact Option.noConfusion hve
    have hc := calculate_turnover_of_error _ _ _ _ _ e hve
    obtain ⟨he1, he2⟩ := validation_error_is_error _ _ _ _ _ e hve
    constructor
    · constructor
      · intro _
        exact hnv
      · intro _
        exact ⟨e, he1, he2, hc⟩
    · constructor
      · rintro ⟨hp, -, -⟩
        rw [hc] at hp
        exact absurd hp.symm (print_results_ne_singleton _ _)
      · intro hv
        exact absurd hv hnv

theorem equity_not_computed_iff (revenue avg_assets equity_capital debt_capital : ℚ)
    (period_days : ℤ) (h : Valid revenue avg_assets equity_capital debt_capital period_days) :
    Out.equityNotComputed
        ∈ calculate_turnover revenue avg_assets equity_capital debt_capital period_days
      ↔ equity_capital = 0 ∨ revenue / equity_capital ≤ (2 : ℚ) ^ (-1075 : ℤ) := by
  rw [calculate_turnover_of_valid _ _ _ _ _ h, mem_print_results]
  simp only [reduceCtorEq, false_or, and_false, or_false, and_true]
  have hr := h.1.1
  have he := h.2.2.1.1
  by_cases hpos : 0 < equity_capital
  · rw [equity_turnover_of_pos _ _ _ _ _ hpos,
      round_double_gt_zero_iff _ (div_nonneg hr (le_of_lt hpos)), not_lt]
    constructor
    · intro hle
      exact Or.inr hle
    · rintro (h0 | hle)
      · rw [h0] at hpos
        exact absurd hpos (lt_irrefl _)
      · exact hle
  · have h0 : equity_capital = 0 := le_antisymm (not_lt.mp hpos) he
    rw [equity_turnover_of_not_pos _ _ _ _ _ hpos]
    simp [Dbl.gt, h0]

theorem debt_not_computed_iff (revenue avg_assets equity_capital debt_capital : ℚ)
    (period_days : ℤ) (h : Valid revenue avg_assets equity_capital debt_capital period_days) :
    Out.debtNotComputed
        ∈ calculate_turnover revenue avg_assets equity_capital debt_capital period_days
      ↔ debt_capital = 0 ∨ revenue / debt_capital ≤ (2 : ℚ) ^ (-1075 : ℤ) := by
  rw [calculate_turnover_of_valid _ _ _ _ _ h, mem_print_results]
  simp only [reduceCtorEq, false_or, and_false, or_false, and_true]
  have hr := h.1.1
  have he := h.2.2.2.1.1
  by_cases hpos : 0 < debt_capital
  · rw [debt_turnover_of_pos _ _ _ _ _ hpos,
      round_double_gt_zero_iff _ (div_nonneg hr (le_of_lt hpos)), not_lt]
    constructor
    · intro hle
      exact Or.inr hle
    · rintro (h0 | hle)
      · rw [h0] at hpos
        exact absurd hpos (lt_irrefl _)
      · exact hle
  · have h0 : debt_capital = 0 := le_antisymm (not_lt.mp hpos) he
    rw [debt_turnover_of_not_pos _ _ _ _ _ hpos]
    simp [Dbl.gt, h0]

/-- C3 (the code at the failing input): with revenue 0, equity capital 500000
and debt capital 300000 the input passes validation and both capital figures
are non-zero, yet the report carries the lines "не рассчитывается (СК = 0)"
and "не рассчитывается (ЗК = 0)" and no equity or debt turnover number. -/
theorem zero_revenue_reports_not_computed :
    Valid 0 1000000 500000 300000 365 ∧
    (500000 : ℚ) ≠ 0 ∧ (300000 : ℚ) ≠ 0 ∧
    calculate_turnover 0 1000000 500000 300000 365
      = [.resultsHeader, .assetTurnover (.fin 0), .equityNotComputed, .debtNotComputed,
         .periodNotComputed, .analysisHeader, .assetAnalysis Low, .advice] := by
  have hv : Valid 0 1000000 500000 300000 365 := by unfold Valid; norm_num
  refine ⟨hv, by norm_num, by norm_num, ?_⟩
  rw [calculate_turnover_of_valid _ _ _ _ _ hv]
  have e1 : ∀ c : ℚ, round_double (0 / c) = .fin 0 := by
    intro c
    rw [zero_div]
    exact round_double_zero
  have g0 : (Dbl.fin 0).gt 0 = false := by
    simp only [Dbl.gt, gt_iff_lt, lt_self_iff_false, decide_False]
  have i0 : interpret_turnover (.fin 0) = Low := by
    simp only [interpret_turnover, Dbl.gt, Low]
    norm_num
  simp only [compute_ratios, print_results, e1, g0, i0, if_true, if_false,
    Bool.false_eq_true, gt_iff_lt, Nat.ofNat_pos, List.cons_append, List.nil_append,
    List.append_nil]

theorem turnover_period_mem (r : Ratios) (h : r.turnover_period.gt 0 = true) :
    Out.turnoverPeriod r.turnover_period ∈ print_results r := by
  rw [mem_print_results]
  exact Or.inr (Or.inr (Or.inr (Or.inr (Or.inr (Or.inr (Or.inl ⟨h, rfl⟩))))))

theorem period_not_computed_iff (revenue avg_assets equity_capital debt_capital : ℚ)
    (period_days : ℤ) (h : Valid revenue avg_assets equity_capital debt_capital period_days) :
    Out.periodNotComputed
        ∈ calculate_turnover revenue avg_assets equity_capital debt_capital period_days
      ↔ (compute_ratios revenue avg_assets equity_capital debt_capital
          period_days).asset_turnover = .fin 0 := by
  rw [calculate_turnover_of_valid _ _ _ _ _ h, mem_print_results]
  simp only [reduceCtorEq, false_or, and_false, or_false, and_true]
  rw [(turnover_period_gt_zero_iff _ _ _ _ _ h).1, not_not]

theorem asset_turnover_eq_zero_iff (revenue avg_assets equity_capital debt_capital : ℚ)
    (period_days : ℤ) (h : Valid revenue avg_assets equity_capital debt_capital period_days) :
    (compute_ratios revenue avg_assets equity_capital debt_capital
        period_days).asset_turnover = .fin 0
      ↔ revenue / avg_assets ≤ (2 : ℚ) ^ (-1075 : ℤ) := by
  rw [asset_turnover_of_valid _ _ _ _ _ h]
  exact round_double_eq_zero_iff _ (quotient_bounds _ _ _ _ _ h).1

theorem tiny_valid :
    Valid ((2 : ℚ) ^ (-1074 : ℤ)) 1000000000000 500000 300000 365 := by
  unfold Valid; norm_num

theorem overflow_valid : Valid ((2 : ℚ) ^ (-1030 : ℤ)) 1 1 1 366 := by
  unfold Valid; norm_num

theorem overflow_asset_turnover :
    (compute_ratios ((2 : ℚ) ^ (-1030 : ℤ)) 1 1 1 366).asset_turnover
      = .fin ((2 : ℚ) ^ (-1030 : ℤ)) := by
  rw [asset_turnover_of_valid _ _ _ _ _ overflow_valid, div_one]
  exact round_double_exact _ 1 (-1030) (by norm_num) (by decide) (by norm_num)
    (by rw [abs_lt]; constructor <;> norm_num)

theorem overflow_turnover_period :
    (compute_ratios ((2 : ℚ) ^ (-1030 : ℤ)) 1 1 1 366).turnover_period = .pinf := by
  have hne : (compute_ratios ((2 : ℚ) ^ (-1030 : ℤ)) 1 1 1 366).asset_turnover ≠ .fin 0 := by
    rw [overflow_asset_turnover]
    intro hc
    have := Dbl.fin.inj hc
    norm_num at this
  obtain ⟨q, -, hq, -, hp⟩ := (turnover_period_gt_zero_iff _ _ _ _ _ overflow_valid).2 hne
  rw [hp, overflow_asset_turnover]
  show round_double (((366 : ℤ) : ℚ) / (2 : ℚ) ^ (-1030 : ℤ)) = .pinf
  exact round_double_overflow _ (by norm_num)

/-- C4 (counterexample): with revenue 2^-1074 (the smallest positive double,
written 5e-324) and average assets 10^12 the input is valid and revenue is not
0, yet the quotient underflows to 0 and the report carries "Период оборота: не
рассчитывается"; and with revenue 2^-1030 and average assets 1 the period
366 / 2^-1030 overflows to +infinity, which is not the number
periodDays * averageAssets / revenue. -/
theorem tiny_revenue_period_not_computed :
    Valid ((2 : ℚ) ^ (-1074 : ℤ)) 1000000000000 500000 300000 365 ∧
    (2 : ℚ) ^ (-1074 : ℤ) ≠ 0 ∧
    Out.periodNotComputed
      ∈ calculate_turnover ((2 : ℚ) ^ (-1074 : ℤ)) 1000000000000 500000 300000 365 ∧
    Valid ((2 : ℚ) ^ (-1030 : ℤ)) 1 1 1 366 ∧
    (2 : ℚ) ^ (-1030 : ℤ) ≠ 0 ∧
    (compute_ratios ((2 : ℚ) ^ (-1030 : ℤ)) 1 1 1 366).turnover_period = .pinf ∧
    (compute_ratios ((2 : ℚ) ^ (-1030 : ℤ)) 1 1 1 366).turnover_period
      ≠ .fin (((366 : ℤ) : ℚ) * 1 / (2 : ℚ) ^ (-1030 : ℤ)) ∧
    Out.turnoverPeriod .pinf ∈ calculate_turnover ((2 : ℚ) ^ (-1030 : ℤ)) 1 1 1 366 := by
  refine ⟨tiny_valid, by norm_num, ?_, overflow_valid, by norm_num, overflow_turnover_period,
    ?_, ?_⟩
  · rw [period_not_computed_iff _ _ _ _ _ tiny_valid,
      asset_turnover_eq_zero_iff _ _ _ _ _ tiny_valid]
    norm_num
  · rw [overflow_turnover_period]
    exact fun hc => Dbl.noConfusion hc
  · rw [calculate_turnover_of_valid _ _ _ _ _ overflow_valid]
    have hm := turnover_period_mem (compute_ratios ((2 : ℚ) ^ (-1030 : ℤ)) 1 1 1 366)
      (by rw [overflow_turnover_period]; rfl)
    rw [overflow_turnover_period] at hm
    exact hm

/-- C4 (amended): for every input that passes validation, the report carries
the line "Период оборота: не рассчитывается" if and only if the computed asset
turnover is 0, which is the case if and only if
`revenue / averageAssets ≤ 2^-1075` (so for revenue 0, and also for a positive
revenue whose quotient underflows); otherwise the turnover period is the double
quotient of `periodDays` by the computed asset turnover, which may be
+infinity, and the report carries it; a turnover period line with a number
appears only then and only with that value. -/
theorem turnover_period_reported
    (revenue averageAssets equityCapital debtCapital : ℚ) (periodDays : ℤ)
    (h : Valid revenue averageAssets equityCapital debtCapital periodDays) :
    (Out.periodNotComputed
        ∈ calculate_turnover revenue averageAssets equityCapital debtCapital periodDays
      ↔ (compute_ratios revenue averageAssets equityCapital debtCapital
          periodDays).asset_turnover = .fin 0) ∧
    ((compute_ratios revenue averageAssets equityCapital debtCapital
        periodDays).asset_turnover = .fin 0
      ↔ revenue / averageAssets ≤ (2 : ℚ) ^ (-1075 : ℤ)) ∧
    (revenue = 0 →
      Out.periodNotComputed
        ∈ calculate_turnover revenue averageAssets equityCapital debtCapital periodDays) ∧
    ((compute_ratios revenue averageAssets equityCapital debtCapital
        periodDays).asset_turnover ≠ .fin 0 →
      revenue ≠ 0 ∧
      (compute_ratios revenue averageAssets equityCapital debtCapital
          periodDays).turnover_period
        = div_double (periodDays : ℚ)
            (compute_ratios revenue averageAssets equityCapital debtCapital
              periodDays).asset_turnover ∧
      (∃ q : ℚ, 0 < q ∧
        (compute_ratios revenue averageAssets equityCapital debtCapital
          periodDays).asset_turnover = .fin q ∧
        (compute_ratios revenue averageAssets equityCapital debtCapital
          periodDays).turnover_period = round_double ((periodDays : ℚ) / q)) ∧
      Out.turnoverPeriod
          (div_double (periodDays : ℚ)
            (compute_ratios revenue averageAssets equityCapital debtCapital
              periodDays).asset_turnover)
        ∈ calculate_turnover revenue averageAssets equityCapital debtCapital periodDays) ∧
    (∀ v, Out.turnoverPeriod v
        ∈ calculate_turnover revenue averageAssets equityCapital debtCapital periodDays →
      (compute_ratios revenue averageAssets equityCapital debtCapital
          periodDays).asset_turnover ≠ .fin 0 ∧
      v = div_double (periodDays : ℚ)
            (compute_ratios revenue averageAssets equityCapital debtCapital
              periodDays).asset_turnover) := by
  have hc := calculate_turnover_of_valid _ _ _ _ _ h
  have hpn := period_not_computed_iff _ _ _ _ _ h
  have hz := asset_turnover_eq_zero_iff _ _ _ _ _ h
  obtain ⟨hgt, hval⟩ := turnover_period_gt_zero_iff _ _ _ _ _ h
  refine ⟨hpn, hz, ?_, ?_, ?_⟩
  · intro hr
    rw [hpn, hz, hr, zero_div]
    exact le_of_lt (zpow_pos (by norm_num) _)
  · intro hne
    obtain ⟨q, hq0, hq, hp1, hp2⟩ := hval hne
    refine ⟨?_, hp2, ⟨q, hq0, hq, hp1⟩, ?_⟩
    · intro hr
      apply hne
      rw [hz, hr, zero_div]
      exact le_of_lt (zpow_pos (by norm_num) _)
    · rw [hc, mem_print_results, ← hp2]
      simp only [reduceCtorEq, false_or, and_false, or_false, hgt.mpr hne, true_and,
        true_or, or_true]
  · intro v hv
    rw [hc, mem_print_results] at hv
    simp only [reduceCtorEq, false_or, and_false, or_false, Out.turnoverPeriod.injEq] at hv
    obtain ⟨hp, hv⟩ := hv
    have hne := hgt.mp hp
    obtain ⟨q, -, -, -, hp2⟩ := hval hne
    exact ⟨hne, by rw [hv, hp2]⟩

theorem test9_valid : Valid 1000000 500000 300000 200000 90 := by
  unfold Valid; norm_num

theorem test9_asset_turnover :
    (compute_ratios 1000000 500000 300000 200000 90).asset_turnover = .fin 2 := by
  rw [asset_turnover_of_valid _ _ _ _ _ test9_valid]
  have e : (1000000 : ℚ) / 500000 = 2 := by norm_num
  rw [e]
  exact round_double_exact 2 1 1 (by norm_num) (by decide) (by norm_num) (by norm_num)

/-- Witness of C4 (amended) at self-test 9 (1000000, 500000, 300000, 200000,
90): the asset turnover is 2 and the printed turnover period is 45. -/
theorem turnover_period_reported_test9 :
    Valid 1000000 500000 300000 200000 90 ∧
    (compute_ratios 1000000 500000 300000 200000 90).asset_turnover = .fin 2 ∧
    (compute_ratios 1000000 500000 300000 200000 90).turnover_period = .fin 45 ∧
    Out.turnoverPeriod (.fin 45) ∈ calculate_turnover 1000000 500000 300000 200000 90 ∧
    Out.periodNotComputed ∉ calculate_turnover 1000000 500000 300000 200000 90 := by
  obtain ⟨h1, -, -, h4, -⟩ :=
    turnover_period_reported 1000000 500000 300000 200000 90 test9_valid
  have ha := test9_asset_turnover
  have hne : (compute_ratios 1000000 500000 300000 200000 90).asset_turnover ≠ .fin 0 := by
    rw [ha]
    intro hc
    have := Dbl.fin.inj hc
    norm_num at this
  obtain ⟨-, hp, -, hm⟩ := h4 hne
  have e : div_double ((90 : ℤ) : ℚ)
      (compute_ratios 1000000 500000 300000 200000 90).asset_turnover = .fin 45 := by
    rw [ha]
    show round_double (((90 : ℤ) : ℚ) / 2) = .fin 45
    have e1 : ((90 : ℤ) : ℚ) / 2 = 45 := by norm_num
    rw [e1]
    exact round_double_exact 45 45 0 (by norm_num) (by decide) (by norm_num) (by norm_num)
  rw [e] at hp hm
  refine ⟨test9_valid, ha, hp, hm, ?_⟩
  rw [h1]
  exact hne

/-- Self-test 1 (2000000, 1000000, 500000, 300000, 365) prints the turnover
period 182.5. -/
theorem turnover_period_test1 :
    (compute_ratios 2000000 1000000 500000 300000 365).turnover_period = .fin (365 / 2) ∧
    Out.turnoverPeriod (.fin (365 / 2))
      ∈ calculate_turnover 2000000 1000000 500000 300000 365 := by
  have ha := test1_asset_turnover
  have hne : (compute_ratios 2000000 1000000 500000 300000 365).asset_turnover ≠ .fin 0 := by
    rw [ha]
    intro hc
    have := Dbl.fin.inj hc
    norm_num at this
  obtain ⟨q, -, -, -, hp⟩ := (turnover_period_gt_zero_iff _ _ _ _ _ test1_valid).2 hne
  have e : (compute_ratios 2000000 1000000 500000 300000 365).turnover_period
      = .fin (365 / 2) := by
    rw [hp, ha]
    show round_double (((365 : ℤ) : ℚ) / 2) = .fin (365 / 2)
    have e1 : ((365 : ℤ) : ℚ) / 2 = 365 / 2 := by norm_num
    rw [e1]
    exact round_double_exact (365 / 2) 365 (-1) (by norm_num) (by decide) (by norm_num)
      (by rw [abs_lt]; constructor <;> norm_num)
  refine ⟨e, ?_⟩
  rw [calculate_turnover_of_valid _ _ _ _ _ test1_valid, mem_print_results, e]
  simp only [reduceCtorEq, false_or, and_false, or_false, and_true, true_and, Dbl.gt_fin]
  norm_num

/-- C5: `interpret_turnover` is defined for every ratio and returns exactly one
of three pairwise different labels: High exactly when ratio > 2, Medium exactly
when 1 < ratio ≤ 2, Low exactly when ratio ≤ 1; so 2.5 is High, 1.5 and 2.0 are
Medium, and 1.0, 0 and -1 are Low.  Of the values that are not real numbers,
+infinity is High, and -infinity and NaN are Low. -/
theorem interpret_turnover_three_way (ratio : ℚ) :
    (interpret_turnover (.fin ratio) = High ∨ interpret_turnover (.fin ratio) = Medium ∨
      interpret_turnover (.fin ratio) = Low) ∧
    High ≠ Medium ∧ High ≠ Low ∧ Medium ≠ Low ∧
    (interpret_turnover (.fin ratio) = High ↔ ratio > 2) ∧
    (interpret_turnover (.fin ratio) = Medium ↔ 1 < ratio ∧ ratio ≤ 2) ∧
    (interpret_turnover (.fin ratio) = Low ↔ ratio ≤ 1) ∧
    interpret_turnover (.fin (5 / 2)) = High ∧
    interpret_turnover (.fin (3 / 2)) = Medium ∧
    interpret_turnover (.fin 2) = Medium ∧
    interpret_turnover (.fin 1) = Low ∧
    interpret_turnover (.fin 0) = Low ∧
    interpret_turnover (.fin (-1)) = Low ∧
    interpret_turnover .pinf = High ∧
    interpret_turnover .ninf = Low ∧
    interpret_turnover .nan = Low := by
  have hHM : High ≠ Medium := by decide
  have hHL : High ≠ Low := by decide
  have hML : Medium ≠ Low := by decide
  have key : interpret_turnover (.fin ratio)
      = if ratio > 2 then High else if ratio > 1 then Medium else Low := by
    simp only [interpret_turnover, Dbl.gt, decide_eq_true_eq, High, Medium, Low]
  refine ⟨?_, hHM, hHL, hML, ?_, ?_, ?_, ?_, ?_, ?_, ?_, ?_, ?_, rfl, rfl, rfl⟩
  · rw [key]
    split_ifs
    · exact Or.inl rfl
    · exact Or.inr (Or.inl rfl)
    · exact Or.inr (Or.inr rfl)
  · rw [key]
    split_ifs with h1 h2
    · exact ⟨fun _ => h1, fun _ => rfl⟩
    · exact ⟨fun h => absurd h hHM.symm, fun h => absurd h h1⟩
    · exact ⟨fun h => absurd h hHL.symm, fun h => absurd h h1⟩
  · rw [key]
    split_ifs with h1 h2
    · exact ⟨fun h => absurd h hHM, fun h => absurd h1 (not_lt.mpr h.2)⟩
    · exact ⟨fun _ => ⟨h2, not_lt.mp h1⟩, fun _ => rfl⟩
    · exact ⟨fun h => absurd h hML.symm, fun h => absurd h.1 h2⟩
  · rw [key]
    split_ifs with h1 h2
    · exact ⟨fun h => absurd h hHL, fun h => absurd h1 (not_lt.mpr (by linarith))⟩
    · exact ⟨fun h => absurd h hML, fun h => absurd h2 (not_lt.mpr h)⟩
    · exact ⟨fun _ => not_lt.mp h2, fun _ => rfl⟩
  · simp only [interpret_turnover, Dbl.gt]; norm_num; rfl
  · simp only [interpret_turnover, Dbl.gt]; norm_num; rfl
  · simp only [interpret_turnover, Dbl.gt]; norm_num; rfl
  · simp only [interpret_turnover, Dbl.gt]; norm_num; rfl
  · simp only [interpret_turnover, Dbl.gt]; norm_num; rfl
  · simp only [interpret_turnover, Dbl.gt]; norm_num; rfl

/-- C6: for every input that fails validation, `calculate_turnover` prints
exactly one item, and it is the message of the first violated precondition in
the order revenue, averageAssets, equityCapital, debtCapital, periodDays. -/
theorem calculate_turnover_first_violation
    (revenue averageAssets equityCapital debtCapital : ℚ) (periodDays : ℤ)
    (h : ¬ Valid revenue averageAssets equityCapital debtCapital periodDays) :
    ∃ e : Out,
      calculate_turnover revenue averageAssets equityCapital debtCapital periodDays = [e] ∧
      (e = .errRevenue ↔ ¬ (0 ≤ revenue ∧ revenue ≤ 1000000000000)) ∧
      (e = .errAssets ↔
        (0 ≤ revenue ∧ revenue ≤ 1000000000000) ∧
        ¬ (1 / 100 ≤ averageAssets ∧ averageAssets ≤ 1000000000000)) ∧
      (e = .errEquity ↔
        (0 ≤ revenue ∧ revenue ≤ 1000000000000) ∧
        (1 / 100 ≤ averageAssets ∧ averageAssets ≤ 1000000000000) ∧
        ¬ (0 ≤ equityCapital ∧ equityCapital ≤ 1000000000000)) ∧
      (e = .errDebt ↔
        (0 ≤ revenue ∧ revenue ≤ 1000000000000) ∧
        (1 / 100 ≤ averageAssets ∧ averageAssets ≤ 1000000000000) ∧
        (0 ≤ equityCapital ∧ equityCapital ≤ 1000000000000) ∧
        ¬ (0 ≤ debtCapital ∧ debtCapital ≤ 1000000000000)) ∧
      (e = .errPeriod ↔
        (0 ≤ revenue ∧ revenue ≤ 1000000000000) ∧
        (1 / 100 ≤ averageAssets ∧ averageAssets ≤ 1000000000000) ∧
        (0 ≤ equityCapital ∧ equityCapital ≤ 1000000000000) ∧
        (0 ≤ debtCapital ∧ debtCapital ≤ 1000000000000) ∧
        ¬ (1 ≤ periodDays ∧ periodDays ≤ 366)) := by
  by_cases h1 : revenue < 0 ∨ revenue > 1000000000000
  · refine ⟨.errRevenue, ?_, ?_⟩
    · simp only [calculate_turnover, validation_error, if_pos h1]
    · have n1 : ¬ (0 ≤ revenue ∧ revenue ≤ 1000000000000) := by
        rintro ⟨a, b⟩
        rcases h1 with c | c
        · exact absurd a (not_le.mpr c)
        · exact absurd b (not_le.mpr c)
      simp only [reduceCtorEq, n1, not_false_eq_true, false_and, iff_self, and_self]
  have p1 : 0 ≤ revenue ∧ revenue ≤ 1000000000000 := by
    simp only [not_or, not_lt, gt_iff_lt] at h1
    exact h1
  by_cases h2 : averageAssets < 1 / 100 ∨ averageAssets > 1000000000000
  · refine ⟨.errAssets, ?_, ?_⟩
    · simp only [calculate_turnover, validation_error, if_neg h1, if_pos h2]
    · have n2 : ¬ (1 / 100 ≤ averageAssets ∧ averageAssets ≤ 1000000000000) := by
        rintro ⟨a, b⟩
        rcases h2 with c | c
        · exact absurd a (not_le.mpr c)
        · exact absurd b (not_le.mpr c)
      simp only [reduceCtorEq, n2, p1, not_false_eq_true, false_and, and_false, and_self,
        not_true_eq_false, iff_self]
  have p2 : 1 / 100 ≤ averageAssets ∧ averageAssets ≤ 1000000000000 := by
    simp only [not_or, not_lt, gt_iff_lt] at h2
    exact h2
  by_cases h3 : equityCapital < 0 ∨ equityCapital > 1000000000000
  · refine ⟨.errEquity, ?_, ?_⟩
    · simp only [calculate_turnover, validation_error, if_neg h1, if_neg h2, if_pos h3]
    · have n3 : ¬ (0 ≤ equityCapital ∧ equityCapital ≤ 1000000000000) := by
        rintro ⟨a, b⟩
        rcases h3 with c | c
        · exact absurd a (not_le.mpr c)
        · exact absurd b (not_le.mpr c)
      simp only [reduceCtorEq, n3, p1, p2, not_false_eq_true, false_and, and_false, and_self,
        not_true_eq_false, iff_self]
  have p3 : 0 ≤ equityCapital ∧ equityCapital ≤ 1000000000000 := by
    simp only [not_or, not_lt, gt_iff_lt] at h3
    exact h3
  by_cases h4 : debtCapital < 0 ∨ debtCapital > 1000000000000
  · refine ⟨.errDebt, ?_, ?_⟩
    · simp only [calculate_turnover, validation_error, if_neg h1, if_neg h2, if_neg h3,
        if_pos h4]
    · have n4 : ¬ (0 ≤ debtCapital ∧ debtCapital ≤ 1000000000000) := by
        rintro ⟨a, b⟩
        rcases h4 with c | c
        · exact absurd a (not_le.mpr c)
        · exact absurd b (not_le.mpr c)
      simp only [reduceCtorEq, n4, p1, p2, p3, not_false_eq_true, false_and, and_false,
        and_self, not_true_eq_false, iff_self]
  have p4 : 0 ≤ debtCapital ∧ debtCapital ≤ 1000000000000 := by
    simp only [not_or, not_lt, gt_iff_lt] at h4
    exact h4
  have n5 : ¬ (1 ≤ periodDays ∧ periodDays ≤ 366) := fun p5 => h ⟨p1, p2, p3, p4, p5⟩
  have h5 : periodDays < 1 ∨ periodDays > 366 := by
    by_contra hc
    simp only [not_or, not_lt, gt_iff_lt] at hc
    exact n5 hc
  refine ⟨.errPeriod, ?_, ?_⟩
  · simp only [calculate_turnover, validation_error, if_neg h1, if_neg h2, if_neg h3,
      if_neg h4, if_pos h5]
  · simp only [reduceCtorEq, n5, p1, p2, p3, p4, not_false_eq_true, false_and, and_false,
      and_self, not_true_eq_false, iff_self]

/-- Witness of C6 at self-test 8 (-1000000, 500000, 300000, 200000, 365):
negative revenue with the rest valid prints the revenue-range message alone. -/
theorem calculate_turnover_first_violation_test8 :
    ¬ Valid (-1000000) 500000 300000 200000 365 ∧
    calculate_turnover (-1000000) 500000 300000 200000 365 = [.errRevenue] := by
  have hv : ¬ Valid (-1000000) 500000 300000 200000 365 := by
    unfold Valid; norm_num
  obtain ⟨e, he, h1, -⟩ :=
    calculate_turnover_first_violation (-1000000) 500000 300000 200000 365 hv
  have : e = .errRevenue := h1.mpr (by norm_num)
  rw [this] at he
  exact ⟨hv, he⟩

/-- Self-test 7 (1000000, 0, 500000, 300000, 365): zero average assets with a
valid revenue prints the averageAssets-range message alone. -/
theorem calculate_turnover_test7 :
    ¬ Valid 1000000 0 500000 300000 365 ∧
    calculate_turnover 1000000 0 500000 300000 365 = [.errAssets] := by
  refine ⟨by unfold Valid; norm_num, ?_⟩
  norm_num [calculate_turnover, validation_error]


/-! ## The bounded-number prompt -/

theorem emit_eq_some {α : Type} (pre : List Out) (x : Option (α × List Out)) (a : α)
    (o : List Out) :
    emit pre x = some (a, o) ↔ ∃ o1, x = some (a, o1) ∧ o = pre ++ o1 := by
  cases x with
  | none => simp [emit]
  | some p =>
    obtain ⟨b, o2⟩ := p
    simp only [emit, Option.some.injEq, Prod.mk.injEq]
    constructor
    · rintro ⟨rfl, rfl⟩
      exact ⟨o2, ⟨rfl, rfl⟩, rfl⟩
    · rintro ⟨o1, ⟨rfl, rfl⟩, rfl⟩
      exact ⟨rfl, rfl⟩

theorem emit_some {α : Type} (pre : List Out) (a : α) (o : List Out) :
    emit pre (some (a, o)) = some (a, pre ++ o) := rfl

theorem get_positive_input_blank (prompt : String) (lo hi : ℚ) (fuel : ℕ) (ls : Input) :
    get_positive_input prompt lo hi fuel ([] :: ls)
      = get_positive_input prompt lo hi fuel ls := by
  cases fuel with
  | zero => cases ls <;> rfl
  | succ n => simp only [get_positive_input, read_double]

theorem get_positive_input_accept (prompt : String) (lo hi : ℚ) (fuel : ℕ) (t : Token)
    (ts : List Token) (ls : Input) (v : ℚ) (ht : t.asDouble = some v) (h1 : lo ≤ v)
    (h2 : v ≤ hi) :
    get_positive_input prompt lo hi (fuel + 1) ((t :: ts) :: ls)
      = some ((v, ts :: ls), [.prompt prompt]) := by
  have hc : v ≥ lo ∧ v ≤ hi := ⟨h1, h2⟩
  simp only [get_positive_input, read_double, ht, if_pos hc]

theorem get_positive_input_out_of_range (prompt : String) (lo hi : ℚ) (fuel : ℕ) (t : Token)
    (ts : List Token) (ls : Input) (w : ℚ) (ht : t.asDouble = some w)
    (hw : ¬ (lo ≤ w ∧ w ≤ hi)) :
    get_positive_input prompt lo hi (fuel + 1) ((t :: ts) :: ls)
      = emit [.prompt prompt, .errBounds lo hi]
          (get_positive_input prompt lo hi fuel (ts :: ls)) := by
  have hc : ¬ (w ≥ lo ∧ w ≤ hi) := hw
  simp only [get_positive_input, read_double, ht, if_neg hc]

theorem get_positive_input_non_numeric (prompt : String) (lo hi : ℚ) (fuel : ℕ) (t : Token)
    (ts : List Token) (ls : Input) (ht : t.asDouble = none) :
    get_positive_input prompt lo hi (fuel + 1) ((t :: ts) :: ls)
      = emit [.prompt prompt, .errNotNumeric]
          (get_positive_input prompt lo hi fuel ls) := by
  simp only [get_positive_input, read_double, ht, ignore_line]

theorem get_positive_input_eof (prompt : String) (lo hi : ℚ) (fuel : ℕ) :
    get_positive_input prompt lo hi fuel [] = none := by
  induction fuel with
  | zero => rfl
  | succ n ih => simp only [get_positive_input, read_double, ignore_line, ih, emit]

theorem get_positive_input_sound (prompt : String) (lo hi : ℚ) (fuel : ℕ) :
    ∀ (s : Input) (v : ℚ) (rest : Input) (out : List Out),
      get_positive_input prompt lo hi fuel s = some ((v, rest), out) →
      (lo ≤ v ∧ v ≤ hi) ∧ FirstValid lo hi s v rest := by
  induction fuel with
  | zero =>
    intro s v rest out h
    simp only [get_positive_input, reduceCtorEq] at h
  | succ n ih =>
    intro s
    induction s with
    | nil =>
      intro v rest out h
      rw [get_positive_input_eof] at h
      exact Option.noConfusion h
    | cons l ls ihs =>
      intro v rest out h
      cases l with
      | nil =>
        rw [get_positive_input_blank] at h
        obtain ⟨hr, hf⟩ := ihs v rest out h
        exact ⟨hr, FirstValid.blank hf⟩
      | cons t ts =>
        cases ht : t.asDouble with
        | none =>
          rw [get_positive_input_non_numeric _ _ _ _ _ _ _ ht, emit_eq_some] at h
          obtain ⟨o1, h1, -⟩ := h
          obtain ⟨hr, hf⟩ := ih ls v rest o1 h1
          exact ⟨hr, FirstValid.nonNumeric ht hf⟩
        | some w =>
          by_cases hw : lo ≤ w ∧ w ≤ hi
          · rw [get_positive_input_accept _ _ _ _ _ _ _ w ht hw.1 hw.2] at h
            simp only [Option.some.injEq, Prod.mk.injEq] at h
            obtain ⟨⟨rfl, rfl⟩, -⟩ := h
            exact ⟨hw, FirstValid.accept ht hw.1 hw.2⟩
          · rw [get_positive_input_out_of_range _ _ _ _ _ _ _ w ht hw, emit_eq_some] at h
            obtain ⟨o1, h1, -⟩ := h
            obtain ⟨hr, hf⟩ := ih (ts :: ls) v rest o1 h1
            exact ⟨hr, FirstValid.outOfRange ht hw hf⟩

theorem get_positive_input_complete (prompt : String) (lo hi : ℚ) (s : Input) (v : ℚ)
    (rest : Input) (h : FirstValid lo hi s v rest) :
    ∃ fuel out, get_positive_input prompt lo hi fuel s = some ((v, rest), out) := by
  induction h with
  | blank _ ih =>
    obtain ⟨fuel, out, h⟩ := ih
    exact ⟨fuel, out, by rw [get_positive_input_blank]; exact h⟩
  | accept ht h1 h2 =>
    exact ⟨1, _, get_positive_input_accept _ _ _ 0 _ _ _ _ ht h1 h2⟩
  | outOfRange ht hw _ ih =>
    obtain ⟨fuel, out, h⟩ := ih
    exact ⟨fuel + 1, _, by
      rw [get_positive_input_out_of_range _ _ _ _ _ _ _ _ ht hw, h, emit_some]⟩
  | nonNumeric ht _ ih =>
    obtain ⟨fuel, out, h⟩ := ih
    exact ⟨fuel + 1, _, by
      rw [get_positive_input_non_numeric _ _ _ _ _ _ _ ht, h, emit_some]⟩

/-- C7: on a console modelled as a finite sequence of lines of tokens, whenever
`get_positive_input` returns a value `v` then `min ≤ v ≤ max` and `v` is the
first token read that both parses as a number and lies in `[min, max]`, every
token read before it being non-numeric (the rest of its line is discarded) or
numeric but out of range (reading goes on with the next token); and whenever
the input holds such a first valid token the function does return it. -/
theorem get_positive_input_returns_first_valid (prompt : String) (min max : ℚ) (s : Input)
    (v : ℚ) (rest : Input) :
    (∀ fuel out, get_positive_input prompt min max fuel s = some ((v, rest), out) →
      min ≤ v ∧ v ≤ max ∧ FirstValid min max s v rest) ∧
    (FirstValid min max s v rest →
      ∃ fuel out, get_positive_input prompt min max fuel s = some ((v, rest), out)) := by
  constructor
  · intro fuel out h
    obtain ⟨⟨h1, h2⟩, hf⟩ := get_positive_input_sound prompt min max fuel s v rest out h
    exact ⟨h1, h2, hf⟩
  · exact get_positive_input_complete prompt min max s v rest

/-- Witness of C7: on the two input lines `abc 3` and `11 4 5` with bounds
`[0, 10]` the function skips `abc` with the rest of its line, skips `11`, and
returns `4`, leaving `5` unread. -/
theorem get_positive_input_returns_first_valid_example :
    get_positive_input "p" 0 10 3
        [[Token.word, Token.ofInt 3], [Token.ofInt 11, Token.ofInt 4, Token.ofInt 5]]
      = some ((4, [[Token.ofInt 5]]),
          [.prompt "p", .errNotNumeric, .prompt "p", .errBounds 0 10, .prompt "p"]) ∧
    ((0 : ℚ) ≤ 4 ∧ (4 : ℚ) ≤ 10 ∧
      FirstValid 0 10
        [[Token.word, Token.ofInt 3], [Token.ofInt 11, Token.ofInt 4, Token.ofInt 5]]
        4 [[Token.ofInt 5]]) := by
  have h : get_positive_input "p" 0 10 3
        [[Token.word, Token.ofInt 3], [Token.ofInt 11, Token.ofInt 4, Token.ofInt 5]]
      = some ((4, [[Token.ofInt 5]]),
          [.prompt "p", .errNotNumeric, .prompt "p", .errBounds 0 10, .prompt "p"]) := by
    decide
  exact ⟨h, (get_positive_input_returns_first_valid "p" 0 10 _ 4 _).1 3 _ h⟩

theorem get_positive_input_output (prompt : String) (lo hi : ℚ) (fuel : ℕ) :
    ∀ (s : Input) (v : ℚ) (rest : Input) (out : List Out),
      get_positive_input prompt lo hi fuel s = some ((v, rest), out) →
      ∀ o ∈ out, o.isDataEntry = true := by
  induction fuel with
  | zero =>
    intro s v rest out h
    simp only [get_positive_input, reduceCtorEq] at h
  | succ n ih =>
    intro s v rest out h
    unfold get_positive_input at h
    rcases hr : read_double s with ⟨_ | w, s1⟩
    · rw [hr] at h
      simp only [emit_eq_some] at h
      obtain ⟨o1, h1, rfl⟩ := h
      intro o ho
      simp only [List.cons_append, List.nil_append, List.mem_cons] at ho
      rcases ho with rfl | rfl | ho
      · rfl
      · rfl
      · exact ih _ _ _ _ h1 o ho
    · rw [hr] at h
      simp only at h
      split_ifs at h with hc
      · simp only [Option.some.injEq, Prod.mk.injEq] at h
        obtain ⟨-, rfl⟩ := h
        intro o ho
        simp only [List.mem_singleton] at ho
        subst ho
        rfl
      · simp only [emit_eq_some] at h
        obtain ⟨o1, h1, rfl⟩ := h
        intro o ho
        simp only [List.cons_append, List.nil_append, List.mem_cons] at ho
        rcases ho with rfl | rfl | ho
        · rfl
        · rfl
        · exact ih _ _ _ _ h1 o ho

/-! ## The session: average-assets loop, period prompt, collected figures -/

theorem read_avg_assets_eq (fuel : ℕ) (s : Input) :
    read_avg_assets (fuel + 1) s
      = get_positive_input promptAssets (1 / 100) 1000000000000 fuel s := by
  unfold read_avg_assets
  cases h : get_positive_input promptAssets (1 / 100) 1000000000000 fuel s with
  | none => rfl
  | some p =>
    obtain ⟨⟨v, s1⟩, o⟩ := p
    have hv := (get_positive_input_sound _ _ _ _ _ _ _ _ h).1.1
    have hc : v ≥ 1 / 100 := hv
    simp only [if_pos hc]

theorem read_period_blank (fuel : ℕ) (ls : Input) :
    read_period fuel ([] :: ls) = read_period fuel ls := by
  cases fuel with
  | zero => cases ls <;> rfl
  | succ n => simp only [read_period, read_int]

theorem read_period_sound (fuel : ℕ) :
    ∀ (s : Input) (p : ℤ) (rest : Input) (out : List Out),
      read_period fuel s = some ((p, rest), out) →
      (1 ≤ p ∧ p ≤ 366) ∧ ∀ o ∈ out, o.isDataEntry = true := by
  induction fuel with
  | zero =>
    intro s p rest out h
    simp only [read_period, reduceCtorEq] at h
  | succ n ih =>
    intro s p rest out h
    unfold read_period at h
    rcases hr : read_int s with ⟨_ | w, s1⟩
    · rw [hr] at h
      simp only [Option.some.injEq, Prod.mk.injEq] at h
      obtain ⟨⟨rfl, -⟩, rfl⟩ := h
      refine ⟨by decide, ?_⟩
      intro o ho
      simp only [List.mem_singleton] at ho
      subst ho
      rfl
    · rw [hr] at h
      simp only at h
      split_ifs at h with hc
      · simp only [Option.some.injEq, Prod.mk.injEq] at h
        obtain ⟨⟨rfl, -⟩, rfl⟩ := h
        refine ⟨hc, ?_⟩
        intro o ho
        simp only [List.mem_singleton] at ho
        subst ho
        rfl
      · simp only [emit_eq_some] at h
        obtain ⟨o1, h1, rfl⟩ := h
        obtain ⟨hp, ho1⟩ := ih _ _ _ _ h1
        refine ⟨hp, ?_⟩
        intro o ho
        simp only [List.cons_append, List.nil_append, List.mem_cons] at ho
        rcases ho with rfl | rfl | ho
        · rfl
        · rfl
        · exact ho1 o ho

theorem read_period_total (s : Input) :
    ∃ fuel p rest out, read_period fuel s = some ((p, rest), out) := by
  induction s with
  | nil => exact ⟨1, 365, [], [.periodPrompt], rfl⟩
  | cons l ls ihs =>
    induction l with
    | nil =>
      obtain ⟨fuel, p, rest, out, h⟩ := ihs
      exact ⟨fuel, p, rest, out, by rw [read_period_blank]; exact h⟩
    | cons t ts iht =>
      cases ht : t.asInt with
      | none =>
        exact ⟨1, 365, ls, [.periodPrompt], by
          simp only [read_period, read_int, ht, ignore_line]⟩
      | some n =>
        by_cases hc : n ≥ 1 ∧ n ≤ 366
        · exact ⟨1, n, ts :: ls, [.periodPrompt], by
            simp only [read_period, read_int, ht, if_pos hc]⟩
        · obtain ⟨fuel, p, rest, out, h⟩ := iht
          exact ⟨fuel + 1, p, rest, [.periodPrompt, .errPeriod] ++ out, by
            simp only [read_period, read_int, ht, if_neg hc, h, emit_some]⟩

/-- C9: at the period prompt of the session, a token that does not parse as an
integer makes the period 365 at once, after a single prompt, and its line is
discarded; an integer outside [1, 366] is answered with the range message and a
new prompt; an integer inside [1, 366] is accepted as the period.  Blank lines
are skipped and exhausted input also gives 365.  The prompt returns on every
input, every period it returns lies in [1, 366], and so does the period the
session hands to `calculate_turnover`. -/
theorem period_prompt_behaviour (fuel : ℕ) (t : Token) (ts : List Token) (ls : Input) :
    (t.asInt = none →
      read_period (fuel + 1) ((t :: ts) :: ls) = some ((365, ls), [.periodPrompt])) ∧
    (∀ n : ℤ, t.asInt = some n → ¬ (1 ≤ n ∧ n ≤ 366) →
      read_period (fuel + 1) ((t :: ts) :: ls)
        = emit [.periodPrompt, .errPeriod] (read_period fuel (ts :: ls))) ∧
    (∀ n : ℤ, t.asInt = some n → 1 ≤ n → n ≤ 366 →
      read_period (fuel + 1) ((t :: ts) :: ls) = some ((n, ts :: ls), [.periodPrompt])) ∧
    read_period fuel ([] :: ls) = read_period fuel ls ∧
    read_period (fuel + 1) [] = some ((365, []), [.periodPrompt]) ∧
    (∀ (s : Input) (p : ℤ) (rest : Input) (out : List Out),
      read_period fuel s = some ((p, rest), out) → 1 ≤ p ∧ p ≤ 366) ∧
    (∀ s : Input, ∃ n p rest out,
      read_period n s = some ((p, rest), out) ∧ 1 ≤ p ∧ p ≤ 366) ∧
    (∀ (s : Input) (i : Inputs) (rest : Input) (out : List Out),
      collect_inputs fuel s = some ((i, rest), out) →
      1 ≤ i.period_days ∧ i.period_days ≤ 366) := by
  refine ⟨?_, ?_, ?_, read_period_blank fuel ls, rfl, ?_, ?_, ?_⟩
  · intro ht
    simp only [read_period, read_int, ht, ignore_line]
  · intro n ht hc
    have hc2 : ¬ (n ≥ 1 ∧ n ≤ 366) := hc
    simp only [read_period, read_int, ht, if_neg hc2]
  · intro n ht h1 h2
    have hc : n ≥ 1 ∧ n ≤ 366 := ⟨h1, h2⟩
    simp only [read_period, read_int, ht, if_pos hc]
  · intro s p rest out h
    exact (read_period_sound fuel s p rest out h).1
  · intro s
    obtain ⟨n, p, rest, out, h⟩ := read_period_total s
    exact ⟨n, p, rest, out, h, (read_period_sound n s p rest out h).1⟩
  · intro s i rest out h
    unfold collect_inputs at h
    rcases h1 : get_positive_input promptRevenue 0 1000000000000 fuel s with _ | ⟨⟨a, s1⟩, o1⟩
    · rw [h1] at h; exact Option.noConfusion h
    rw [h1] at h
    simp only at h
    rcases h2 : read_avg_assets fuel s1 with _ | ⟨⟨b, s2⟩, o2⟩
    · rw [h2] at h; exact Option.noConfusion h
    rw [h2] at h
    simp only at h
    rcases h3 : get_positive_input promptEquity 0 1000000000000 fuel s2 with _ | ⟨⟨c, s3⟩, o3⟩
    · rw [h3] at h; exact Option.noConfusion h
    rw [h3] at h
    simp only at h
    rcases h4 : get_positive_input promptDebt 0 1000000000000 fuel s3 with _ | ⟨⟨d, s4⟩, o4⟩
    · rw [h4] at h; exact Option.noConfusion h
    rw [h4] at h
    simp only at h
    rcases h5 : read_period fuel s4 with _ | ⟨⟨e, s5⟩, o5⟩
    · rw [h5] at h; exact Option.noConfusion h
    rw [h5] at h
    simp only [Option.some.injEq, Prod.mk.injEq] at h
    obtain ⟨⟨rfl, -⟩, -⟩ := h
    exact (read_period_sound fuel s4 e s5 o5 h5).1

/-- Witness of C9: on the line `500 0 90` the prompt rejects 500 and 0 and
accepts 90; on the line `abc 90` it returns 365 after one prompt and discards
the line. -/
theorem period_prompt_behaviour_example :
    read_period 3 [[Token.ofInt 500, Token.ofInt 0, Token.ofInt 90]]
      = some ((90, [[]]),
          [.periodPrompt, .errPeriod, .periodPrompt, .errPeriod, .periodPrompt]) ∧
    read_period 1 [[Token.word, Token.ofInt 90], [Token.ofInt 7]]
      = some ((365, [[Token.ofInt 7]]), [.periodPrompt]) := by
  constructor
  · decide
  · exact (period_prompt_behaviour 0 Token.word [Token.ofInt 90] [[Token.ofInt 7]]).1 rfl

theorem collect_inputs_eq_some (fuel : ℕ) (s : Input) (i : Inputs) (rest : Input)
    (out : List Out) :
    collect_inputs fuel s = some ((i, rest), out) ↔
      ∃ s1 o1 s2 o2 s3 o3 s4 o4 o5,
        get_positive_input promptRevenue 0 1000000000000 fuel s
          = some ((i.revenue, s1), o1) ∧
        read_avg_assets fuel s1 = some ((i.avg_assets, s2), o2) ∧
        get_positive_input promptEquity 0 1000000000000 fuel s2
          = some ((i.equity_capital, s3), o3) ∧
        get_positive_input promptDebt 0 1000000000000 fuel s3
          = some ((i.debt_capital, s4), o4) ∧
        read_period fuel s4 = some ((i.period_days, rest), o5) ∧
        out = [.inputHeader] ++ o1 ++ o2 ++ o3 ++ o4 ++ o5 := by
  constructor
  · intro h
    unfold collect_inputs at h
    rcases h1 : get_positive_input promptRevenue 0 1000000000000 fuel s with _ | ⟨⟨a, s1⟩, o1⟩
    · rw [h1] at h; exact Option.noConfusion h
    rw [h1] at h
    simp only at h
    rcases h2 : read_avg_assets fuel s1 with _ | ⟨⟨b, s2⟩, o2⟩
    · rw [h2] at h; exact Option.noConfusion h
    rw [h2] at h
    simp only at h
    rcases h3 : get_positive_input promptEquity 0 1000000000000 fuel s2 with _ | ⟨⟨c, s3⟩, o3⟩
    · rw [h3] at h; exact Option.noConfusion h
    rw [h3] at h
    simp only at h
    rcases h4 : get_positive_input promptDebt 0 1000000000000 fuel s3 with _ | ⟨⟨d, s4⟩, o4⟩
    · rw [h4] at h; exact Option.noConfusion h
    rw [h4] at h
    simp only at h
    rcases h5 : read_period fuel s4 with _ | ⟨⟨e, s5⟩, o5⟩
    · rw [h5] at h; exact Option.noConfusion h
    rw [h5] at h
    simp only [Option.some.injEq, Prod.mk.injEq] at h
    obtain ⟨⟨rfl, rfl⟩, rfl⟩ := h
    exact ⟨s1, o1, s2, o2, s3, o3, s4, o4, o5, rfl, h2, h3, h4, h5, rfl⟩
  · rintro ⟨s1, o1, s2, o2, s3, o3, s4, o4, o5, h1, h2, h3, h4, h5, rfl⟩
    unfold collect_inputs
    rw [h1]
    simp only
    rw [h2]
    simp only
    rw [h3]
    simp only
    rw [h4]
    simp only
    rw [h5]

theorem read_avg_assets_sound (fuel : ℕ) (s : Input) (v : ℚ) (rest : Input) (out : List Out)
    (h : read_avg_assets fuel s = some ((v, rest), out)) :
    (1 / 100 ≤ v ∧ v ≤ 1000000000000) ∧ ∀ o ∈ out, o.isDataEntry = true := by
  cases fuel with
  | zero => simp only [read_avg_assets, reduceCtorEq] at h
  | succ n =>
    rw [read_avg_assets_eq] at h
    exact ⟨(get_positive_input_sound _ _ _ _ _ _ _ _ h).1,
      get_positive_input_output _ _ _ _ _ _ _ _ h⟩

theorem collect_inputs_valid (fuel : ℕ) (s : Input) (i : Inputs) (rest : Input)
    (out : List Out) (h : collect_inputs fuel s = some ((i, rest), out)) :
    Valid i.revenue i.avg_assets i.equity_capital i.debt_capital i.period_days ∧
    ∀ o ∈ out, o.isDataEntry = true := by
  obtain ⟨s1, o1, s2, o2, s3, o3, s4, o4, o5, h1, h2, h3, h4, h5, rfl⟩ :=
    (collect_inputs_eq_some fuel s i rest out).mp h
  refine ⟨⟨(get_positive_input_sound _ _ _ _ _ _ _ _ h1).1, (read_avg_assets_sound _ _ _ _ _ h2).1,
    (get_positive_input_sound _ _ _ _ _ _ _ _ h3).1,
    (get_positive_input_sound _ _ _ _ _ _ _ _ h4).1, (read_period_sound _ _ _ _ _ h5).1⟩, ?_⟩
  intro o ho
  simp only [List.mem_append, List.mem_singleton] at ho
  rcases ho with ((((ho | ho) | ho) | ho) | ho) | ho
  · subst ho; rfl
  · exact get_positive_input_output _ _ _ _ _ _ _ _ h1 o ho
  · exact (read_avg_assets_sound _ _ _ _ _ h2).2 o ho
  · exact get_positive_input_output _ _ _ _ _ _ _ _ h3 o ho
  · exact get_positive_input_output _ _ _ _ _ _ _ _ h4 o ho
  · exact (read_period_sound _ _ _ _ _ h5).2 o ho

/-- C10: every tuple that `get_user_input_and_calculate` collects and hands to
`calculate_turnover` satisfies the five preconditions; so the input check of
`calculate_turnover` finds no violation and the call prints the full report
with no validation message, the guard `avg_assets > 0` holds and the asset
turnover is the double quotient of revenue by avg_assets, the message of the
average-assets re-check is never written, and the loop of that re-check is one call of
`get_positive_input`, that is, it leaves on its first iteration. -/
theorem interactive_inputs_always_valid (fuel : ℕ) (s : Input) (i : Inputs) (rest : Input)
    (out : List Out) (h : collect_inputs fuel s = some ((i, rest), out)) :
    Valid i.revenue i.avg_assets i.equity_capital i.debt_capital i.period_days ∧
    validation_error i.revenue i.avg_assets i.equity_capital i.debt_capital i.period_days
      = none ∧
    calculate_turnover i.revenue i.avg_assets i.equity_capital i.debt_capital i.period_days
      = print_results
          (compute_ratios i.revenue i.avg_assets i.equity_capital i.debt_capital
            i.period_days) ∧
    (∀ o ∈ calculate_turnover i.revenue i.avg_assets i.equity_capital i.debt_capital
        i.period_days, o.isValidationError = false) ∧
    get_user_input_and_calculate fuel s
      = some (rest, out ++ [.calcHeader] ++
          print_results
            (compute_ratios i.revenue i.avg_assets i.equity_capital i.debt_capital
              i.period_days)) ∧
    i.avg_assets > 0 ∧
    (compute_ratios i.revenue i.avg_assets i.equity_capital i.debt_capital
        i.period_days).asset_turnover = round_double (i.revenue / i.avg_assets) ∧
    Out.errAssetsMin ∉ out ∧
    (∀ (n : ℕ) (s1 : Input),
      read_avg_assets (n + 1) s1
        = get_positive_input promptAssets (1 / 100) 1000000000000 n s1) := by
  obtain ⟨hv, hout⟩ := collect_inputs_valid fuel s i rest out h
  have hc := calculate_turnover_of_valid _ _ _ _ _ hv
  refine ⟨hv, (validation_error_eq_none_iff _ _ _ _ _).mpr hv, hc, ?_, ?_, ?_,
    asset_turnover_of_valid _ _ _ _ _ hv, ?_, read_avg_assets_eq⟩
  · intro o ho
    rw [hc] at ho
    exact (print_results_no_error _ o ho).1
  · unfold get_user_input_and_calculate
    rw [h]
    simp only
    rw [hc]
  · have := hv.2.1.1
    have h0 : (0 : ℚ) < 1 / 100 := by norm_num
    exact lt_of_lt_of_le h0 this
  · intro hmem
    have := hout _ hmem
    exact Bool.noConfusion this

/-- Witness of C10: the session on the input line `100 50 0 10 90` collects
revenue 100, average assets 50, equity 0, debt 10 and period 90, which satisfy
the five preconditions. -/
theorem interactive_inputs_always_valid_example :
    collect_inputs 2
        [[Token.ofInt 100, Token.ofInt 50, Token.ofInt 0, Token.ofInt 10, Token.ofInt 90]]
      = some ((⟨100, 50, 0, 10, 90⟩, [[]]),
          [.inputHeader, .prompt promptRevenue, .prompt promptAssets, .prompt promptEquity,
           .prompt promptDebt, .periodPrompt]) ∧
    Valid 100 50 0 10 90 := by
  have h : collect_inputs 2
        [[Token.ofInt 100, Token.ofInt 50, Token.ofInt 0, Token.ofInt 10, Token.ofInt 90]]
      = some ((⟨100, 50, 0, 10, 90⟩, [[]]),
          [.inputHeader, .prompt promptRevenue, .prompt promptAssets, .prompt promptEquity,
           .prompt promptDebt, .periodPrompt]) := by
    norm_num [collect_inputs, read_avg_assets, get_positive_input, read_double, read_period,
      read_int, Token.ofInt, emit]
  exact ⟨h, (interactive_inputs_always_valid 2 _ _ _ _ h).1⟩

/-! ## More fuel never changes a result -/

theorem get_positive_input_mono (prompt : String) (lo hi : ℚ) (fuel : ℕ) :
    ∀ (s : Input) (r : (ℚ × Input) × List Out),
      get_positive_input prompt lo hi fuel s = some r →
      get_positive_input prompt lo hi (fuel + 1) s = some r := by
  induction fuel with
  | zero =>
    intro s r h
    simp only [get_positive_input, reduceCtorEq] at h
  | succ n ih =>
    intro s
    induction s with
    | nil =>
      intro r h
      rw [get_positive_input_eof] at h
      exact Option.noConfusion h
    | cons l ls ihs =>
      intro r h
      cases l with
      | nil =>
        rw [get_positive_input_blank] at h ⊢
        exact ihs r h
      | cons t ts =>
        obtain ⟨a, o⟩ := r
        cases ht : t.asDouble with
        | none =>
          rw [get_positive_input_non_numeric _ _ _ _ _ _ _ ht, emit_eq_some] at h ⊢
          obtain ⟨o1, h1, rfl⟩ := h
          exact ⟨o1, ih _ _ h1, rfl⟩
        | some w =>
          by_cases hw : lo ≤ w ∧ w ≤ hi
          · rw [get_positive_input_accept _ _ _ _ _ _ _ w ht hw.1 hw.2] at h ⊢
            exact h
          · rw [get_positive_input_out_of_range _ _ _ _ _ _ _ w ht hw, emit_eq_some] at h ⊢
            obtain ⟨o1, h1, rfl⟩ := h
            exact ⟨o1, ih _ _ h1, rfl⟩

theorem read_avg_assets_mono (fuel : ℕ) (s : Input) (r : (ℚ × Input) × List Out)
    (h : read_avg_assets fuel s = some r) : read_avg_assets (fuel + 1) s = some r := by
  cases fuel with
  | zero => simp only [read_avg_assets, reduceCtorEq] at h
  | succ n =>
    rw [read_avg_assets_eq] at h ⊢
    exact get_positive_input_mono _ _ _ _ _ _ h

theorem read_period_eof (fuel : ℕ) :
    read_period (fuel + 1) [] = some ((365, []), [.periodPrompt]) := rfl

theorem read_period_non_numeric (fuel : ℕ) (t : Token) (ts : List Token) (ls : Input)
    (ht : t.asInt = none) :
    read_period (fuel + 1) ((t :: ts) :: ls) = some ((365, ls), [.periodPrompt]) := by
  simp only [read_period, read_int, ht, ignore_line]

theorem read_period_accept (fuel : ℕ) (t : Token) (ts : List Token) (ls : Input) (n : ℤ)
    (ht : t.asInt = some n) (hc : 1 ≤ n ∧ n ≤ 366) :
    read_period (fuel + 1) ((t :: ts) :: ls) = some ((n, ts :: ls), [.periodPrompt]) := by
  have hc2 : n ≥ 1 ∧ n ≤ 366 := hc
  simp only [read_period, read_int, ht, if_pos hc2]

theorem read_period_out_of_range (fuel : ℕ) (t : Token) (ts : List Token) (ls : Input)
    (n : ℤ) (ht : t.asInt = some n) (hc : ¬ (1 ≤ n ∧ n ≤ 366)) :
    read_period (fuel + 1) ((t :: ts) :: ls)
      = emit [.periodPrompt, .errPeriod] (read_period fuel (ts :: ls)) := by
  have hc2 : ¬ (n ≥ 1 ∧ n ≤ 366) := hc
  simp only [read_period, read_int, ht, if_neg hc2]

theorem read_period_mono (fuel : ℕ) :
    ∀ (s : Input) (r : (ℤ × Input) × List Out),
      read_period fuel s = some r → read_period (fuel + 1) s = some r := by
  induction fuel with
  | zero =>
    intro s r h
    simp only [read_period, reduceCtorEq] at h
  | succ n ih =>
    intro s
    induction s with
    | nil =>
      intro r h
      rw [read_period_eof] at h ⊢
      exact h
    | cons l ls ihs =>
      intro r h
      cases l with
      | nil =>
        rw [read_period_blank] at h ⊢
        exact ihs r h
      | cons t ts =>
        obtain ⟨a, o⟩ := r
        cases ht : t.asInt with
        | none =>
          rw [read_period_non_numeric _ _ _ _ ht] at h ⊢
          exact h
        | some w =>
          by_cases hw : 1 ≤ w ∧ w ≤ 366
          · rw [read_period_accept _ _ _ _ w ht hw] at h ⊢
            exact h
          · rw [read_period_out_of_range _ _ _ _ w ht hw, emit_eq_some] at h ⊢
            obtain ⟨o1, h1, rfl⟩ := h
            exact ⟨o1, ih _ _ h1, rfl⟩

theorem collect_inputs_mono (fuel : ℕ) (s : Input) (r : (Inputs × Input) × List Out)
    (h : collect_inputs fuel s = some r) : collect_inputs (fuel + 1) s = some r := by
  obtain ⟨⟨i, rest⟩, out⟩ := r
  rw [collect_inputs_eq_some] at h ⊢
  obtain ⟨s1, o1, s2, o2, s3, o3, s4, o4, o5, h1, h2, h3, h4, h5, rfl⟩ := h
  exact ⟨s1, o1, s2, o2, s3, o3, s4, o4, o5, get_positive_input_mono _ _ _ _ _ _ h1,
    read_avg_assets_mono _ _ _ h2, get_positive_input_mono _ _ _ _ _ _ h3,
    get_positive_input_mono _ _ _ _ _ _ h4, read_period_mono _ _ _ h5, rfl⟩

theorem get_user_input_and_calculate_mono (fuel : ℕ) (s : Input) (r : Input × List Out)
    (h : get_user_input_and_calculate fuel s = some r) :
    get_user_input_and_calculate (fuel + 1) s = some r := by
  unfold get_user_input_and_calculate at h ⊢
  rcases hc : collect_inputs fuel s with _ | ⟨⟨i, s1⟩, o⟩
  · rw [hc] at h
    exact Option.noConfusion h
  · rw [hc] at h
    rw [collect_inputs_mono _ _ _ hc]
    exact h

theorem get_user_input_and_calculate_mono_le (n m : ℕ) (hnm : n ≤ m) (s : Input)
    (r : Input × List Out) (h : get_user_input_and_calculate n s = some r) :
    get_user_input_and_calculate m s = some r := by
  induction m, hnm using Nat.le_induction with
  | base => exact h
  | succ k _ ih => exact get_user_input_and_calculate_mono _ _ _ ih

/-! ## The menu loop -/

theorem main_eof (fuel : ℕ) : main fuel [] = none := by
  induction fuel with
  | zero => rfl
  | succ n ih => simp only [main, read_int, ignore_line, ih, emit]

theorem main_blank (fuel : ℕ) (ls : Input) : main fuel ([] :: ls) = main fuel ls := by
  cases fuel with
  | zero => cases ls <;> rfl
  | succ n => simp only [main, read_int]

theorem main_non_numeric (fuel : ℕ) (t : Token) (ts : List Token) (ls : Input)
    (ht : t.asInt = none) :
    main (fuel + 1) ((t :: ts) :: ls) = emit [.menu, .errNotNumeric] (main fuel ls) := by
  simp only [main, read_int, ht, ignore_line]

theorem main_exit (fuel : ℕ) (t : Token) (ts : List Token) (ls : Input)
    (ht : t.asInt = some 3) :
    main (fuel + 1) ((t :: ts) :: ls) = some (0, [.menu, .goodbye]) := by
  simp [main, read_int, ht]

theorem main_tests (fuel : ℕ) (t : Token) (ts : List Token) (ls : Input)
    (ht : t.asInt = some 2) :
    main (fuel + 1) ((t :: ts) :: ls)
      = emit (.menu :: test_calculation) (main fuel (ts :: ls)) := by
  simp [main, read_int, ht]

theorem main_calculation (fuel : ℕ) (t : Token) (ts : List Token) (ls : Input)
    (ht : t.asInt = some 1) :
    main (fuel + 1) ((t :: ts) :: ls)
      = match get_user_input_and_calculate fuel (ts :: ls) with
        | none => none
        | some (s2, o) => emit (.menu :: o) (main fuel s2) := by
  simp [main, read_int, ht]

theorem main_other (fuel : ℕ) (t : Token) (ts : List Token) (ls : Input) (c : ℤ)
    (ht : t.asInt = some c) (h1 : c ≠ 1) (h2 : c ≠ 2) (h3 : c ≠ 3) :
    main (fuel + 1) ((t :: ts) :: ls) = emit [.menu, .errChoice] (main fuel (ts :: ls)) := by
  simp [main, read_int, ht, h1, h2, h3]

theorem main_mono (fuel : ℕ) :
    ∀ (s : Input) (r : ℤ × List Out), main fuel s = some r → main (fuel + 1) s = some r := by
  induction fuel with
  | zero =>
    intro s r h
    simp only [main, reduceCtorEq] at h
  | succ n ih =>
    intro s
    induction s with
    | nil =>
      intro r h
      rw [main_eof] at h
      exact Option.noConfusion h
    | cons l ls ihs =>
      intro r h
      cases l with
      | nil =>
        rw [main_blank] at h ⊢
        exact ihs r h
      | cons t ts =>
        obtain ⟨a, o⟩ := r
        cases ht : t.asInt with
        | none =>
          rw [main_non_numeric _ _ _ _ ht, emit_eq_some] at h ⊢
          obtain ⟨o1, h1, rfl⟩ := h
          exact ⟨o1, ih _ _ h1, rfl⟩
        | some c =>
          by_cases c1 : c = 1
          · subst c1
            rw [main_calculation _ _ _ _ ht] at h ⊢
            rcases hs : get_user_input_and_calculate n (ts :: ls) with _ | ⟨s2, o2⟩
            · rw [hs] at h
              exact Option.noConfusion h
            · rw [hs] at h
              rw [get_user_input_and_calculate_mono _ _ _ hs]
              simp only at h ⊢
              rw [emit_eq_some] at h ⊢
              obtain ⟨o1, h1, rfl⟩ := h
              exact ⟨o1, ih _ _ h1, rfl⟩
          · by_cases c2 : c = 2
            · subst c2
              rw [main_tests _ _ _ _ ht, emit_eq_some] at h ⊢
              obtain ⟨o1, h1, rfl⟩ := h
              exact ⟨o1, ih _ _ h1, rfl⟩
            · by_cases c3 : c = 3
              · subst c3
                rw [main_exit _ _ _ _ ht] at h ⊢
                exact h
              · rw [main_other _ _ _ _ c ht c1 c2 c3, emit_eq_some] at h ⊢
                obtain ⟨o1, h1, rfl⟩ := h
                exact ⟨o1, ih _ _ h1, rfl⟩

theorem main_mono_le (n m : ℕ) (hnm : n ≤ m) (s : Input) (r : ℤ × List Out)
    (h : main n s = some r) : main m s = some r := by
  induction m, hnm using Nat.le_induction with
  | base => exact h
  | succ k _ ih => exact main_mono _ _ _ ih

theorem main_sound (fuel : ℕ) :
    ∀ (s : Input) (code : ℤ) (out : List Out),
      main fuel s = some (code, out) → code = 0 ∧ MenuRun s out := by
  induction fuel with
  | zero =>
    intro s code out h
    simp only [main, reduceCtorEq] at h
  | succ n ih =>
    intro s
    induction s with
    | nil =>
      intro code out h
      rw [main_eof] at h
      exact Option.noConfusion h
    | cons l ls ihs =>
      intro code out h
      cases l with
      | nil =>
        rw [main_blank] at h
        obtain ⟨hc, hm⟩ := ihs code out h
        exact ⟨hc, MenuRun.blank hm⟩
      | cons t ts =>
        cases ht : t.asInt with
        | none =>
          rw [main_non_numeric _ _ _ _ ht, emit_eq_some] at h
          obtain ⟨o1, h1, rfl⟩ := h
          obtain ⟨hc, hm⟩ := ih _ _ _ h1
          exact ⟨hc, MenuRun.nonNumeric ht hm⟩
        | some c =>
          by_cases c1 : c = 1
          · subst c1
            rw [main_calculation _ _ _ _ ht] at h
            rcases hs : get_user_input_and_calculate n (ts :: ls) with _ | ⟨s2, o2⟩
            · rw [hs] at h
              exact Option.noConfusion h
            · rw [hs] at h
              simp only at h
              rw [emit_eq_some] at h
              obtain ⟨o1, h1, rfl⟩ := h
              obtain ⟨hc, hm⟩ := ih _ _ _ h1
              exact ⟨hc, MenuRun.calculation ht hs hm⟩
          · by_cases c2 : c = 2
            · subst c2
              rw [main_tests _ _ _ _ ht, emit_eq_some] at h
              obtain ⟨o1, h1, rfl⟩ := h
              obtain ⟨hc, hm⟩ := ih _ _ _ h1
              exact ⟨hc, MenuRun.tests ht hm⟩
            · by_cases c3 : c = 3
              · subst c3
                rw [main_exit _ _ _ _ ht] at h
                simp only [Option.some.injEq, Prod.mk.injEq] at h
                obtain ⟨rfl, rfl⟩ := h
                exact ⟨rfl, MenuRun.exit ht⟩
              · rw [main_other _ _ _ _ c ht c1 c2 c3, emit_eq_some] at h
                obtain ⟨o1, h1, rfl⟩ := h
                obtain ⟨hc, hm⟩ := ih _ _ _ h1
                exact ⟨hc, MenuRun.other ht c1 c2 c3 hm⟩

theorem main_complete (s : Input) (out : List Out) (h : MenuRun s out) :
    ∃ fuel, main fuel s = some (0, out) := by
  induction h with
  | blank _ ih =>
    obtain ⟨fuel, h⟩ := ih
    exact ⟨fuel, by rw [main_blank]; exact h⟩
  | exit ht => exact ⟨1, main_exit 0 _ _ _ ht⟩
  | @calculation t ts ls fuel s2 o out ht hs _ ih =>
    obtain ⟨k, h⟩ := ih
    refine ⟨max fuel k + 1, ?_⟩
    rw [main_calculation _ _ _ _ ht,
      get_user_input_and_calculate_mono_le fuel (max fuel k) (le_max_left _ _) _ _ hs]
    simp only
    rw [main_mono_le k (max fuel k) (le_max_right _ _) _ _ h, emit_some]
  | tests ht _ ih =>
    obtain ⟨fuel, h⟩ := ih
    exact ⟨fuel + 1, by rw [main_tests _ _ _ _ ht, h, emit_some]⟩
  | other ht c1 c2 c3 _ ih =>
    obtain ⟨fuel, h⟩ := ih
    exact ⟨fuel + 1, by rw [main_other _ _ _ _ _ ht c1 c2 c3, h, emit_some]; rfl⟩
  | nonNumeric ht _ ih =>
    obtain ⟨fuel, h⟩ := ih
    exact ⟨fuel + 1, by rw [main_non_numeric _ _ _ _ ht, h, emit_some]; rfl⟩

theorem menu_run_ends_with_goodbye (s : Input) (out : List Out) (h : MenuRun s out) :
    ∃ pre, out = pre ++ [.menu, .goodbye] := by
  induction h with
  | blank _ ih => exact ih
  | exit _ => exact ⟨[], rfl⟩
  | @calculation t ts ls fuel s2 o out _ _ _ ih =>
    obtain ⟨pre, rfl⟩ := ih
    exact ⟨.menu :: o ++ pre, by simp only [List.cons_append, List.append_assoc]⟩
  | tests _ _ ih =>
    obtain ⟨pre, rfl⟩ := ih
    exact ⟨.menu :: test_calculation ++ pre, by
      simp only [List.cons_append, List.append_assoc]⟩
  | other _ _ _ _ _ ih =>
    obtain ⟨pre, rfl⟩ := ih
    exact ⟨.menu :: .errChoice :: pre, rfl⟩
  | nonNumeric _ _ ih =>
    obtain ⟨pre, rfl⟩ := ih
    exact ⟨.menu :: .errNotNumeric :: pre, rfl⟩

/-! ## Tokens left unread come from the input -/

theorem first_valid_rest_subset (lo hi : ℚ) (s : Input) (v : ℚ) (rest : Input)
    (h : FirstValid lo hi s v rest) : ∀ t ∈ rest.flatten, t ∈ s.flatten := by
  induction h with
  | blank _ ih =>
    intro t ht
    simpa only [List.flatten_cons, List.nil_append] using ih t ht
  | accept _ _ _ =>
    intro t ht
    simp only [List.flatten_cons, List.mem_append, List.mem_cons] at ht ⊢
    rcases ht with ht | ht
    · exact Or.inl (Or.inr ht)
    · exact Or.inr ht
  | outOfRange _ _ _ ih =>
    intro t ht
    have := ih t ht
    simp only [List.flatten_cons, List.mem_append, List.mem_cons] at this ⊢
    rcases this with h1 | h1
    · exact Or.inl (Or.inr h1)
    · exact Or.inr h1
  | nonNumeric _ _ ih =>
    intro t ht
    have := ih t ht
    simp only [List.flatten_cons, List.mem_append, List.mem_cons]
    exact Or.inr this

theorem read_period_rest_subset (fuel : ℕ) :
    ∀ (s : Input) (p : ℤ) (rest : Input) (out : List Out),
      read_period fuel s = some ((p, rest), out) → ∀ t ∈ rest.flatten, t ∈ s.flatten := by
  induction fuel with
  | zero =>
    intro s p rest out h
    simp only [read_period, reduceCtorEq] at h
  | succ n ih =>
    intro s
    induction s with
    | nil =>
      intro p rest out h
      rw [read_period_eof] at h
      simp only [Option.some.injEq, Prod.mk.injEq] at h
      obtain ⟨⟨-, rfl⟩, -⟩ := h
      intro t ht
      exact ht
    | cons l ls ihs =>
      intro p rest out h
      cases l with
      | nil =>
        rw [read_period_blank] at h
        intro t ht
        simpa only [List.flatten_cons, List.nil_append] using ihs p rest out h t ht
      | cons t0 ts =>
        cases ht0 : t0.asInt with
        | none =>
          rw [read_period_non_numeric _ _ _ _ ht0] at h
          simp only [Option.some.injEq, Prod.mk.injEq] at h
          obtain ⟨⟨-, rfl⟩, -⟩ := h
          intro t ht
          simp only [List.flatten_cons, List.mem_append, List.mem_cons]
          exact Or.inr ht
        | some w =>
          by_cases hw : 1 ≤ w ∧ w ≤ 366
          · rw [read_period_accept _ _ _ _ w ht0 hw] at h
            simp only [Option.some.injEq, Prod.mk.injEq] at h
            obtain ⟨⟨-, rfl⟩, -⟩ := h
            intro t ht
            simp only [List.flatten_cons, List.mem_append, List.mem_cons] at ht ⊢
            rcases ht with ht | ht
            · exact Or.inl (Or.inr ht)
            · exact Or.inr ht
          · rw [read_period_out_of_range _ _ _ _ w ht0 hw, emit_eq_some] at h
            obtain ⟨o1, h1, -⟩ := h
            intro t ht
            have := ih _ _ _ _ h1 t ht
            simp only [List.flatten_cons, List.mem_append, List.mem_cons] at this ⊢
            rcases this with h2 | h2
            · exact Or.inl (Or.inr h2)
            · exact Or.inr h2

theorem read_avg_assets_rest_subset (fuel : ℕ) (s : Input) (v : ℚ) (rest : Input)
    (out : List Out) (h : read_avg_assets fuel s = some ((v, rest), out)) :
    ∀ t ∈ rest.flatten, t ∈ s.flatten := by
  cases fuel with
  | zero => simp only [read_avg_assets, reduceCtorEq] at h
  | succ n =>
    rw [read_avg_assets_eq] at h
    exact first_valid_rest_subset _ _ _ _ _ (get_positive_input_sound _ _ _ _ _ _ _ _ h).2

theorem session_rest_subset (fuel : ℕ) (s rest : Input) (o : List Out)
    (h : get_user_input_and_calculate fuel s = some (rest, o)) :
    ∀ t ∈ rest.flatten, t ∈ s.flatten := by
  unfold get_user_input_and_calculate at h
  rcases hc : collect_inputs fuel s with _ | ⟨⟨i, s5⟩, oc⟩
  · rw [hc] at h
    exact Option.noConfusion h
  · rw [hc] at h
    simp only [Option.some.injEq, Prod.mk.injEq] at h
    obtain ⟨rfl, -⟩ := h
    obtain ⟨s1, o1, s2, o2, s3, o3, s4, o4, o5, h1, h2, h3, h4, h5, -⟩ :=
      (collect_inputs_eq_some fuel s i s5 oc).mp hc
    intro t ht
    have a5 := read_period_rest_subset _ _ _ _ _ h5 t ht
    have a4 := first_valid_rest_subset _ _ _ _ _
      (get_positive_input_sound _ _ _ _ _ _ _ _ h4).2 t a5
    have a3 := first_valid_rest_subset _ _ _ _ _
      (get_positive_input_sound _ _ _ _ _ _ _ _ h3).2 t a4
    have a2 := read_avg_assets_rest_subset _ _ _ _ _ h2 t a3
    exact first_valid_rest_subset _ _ _ _ _
      (get_positive_input_sound _ _ _ _ _ _ _ _ h1).2 t a2

theorem menu_run_reads_selection_3 (s : Input) (out : List Out) (h : MenuRun s out) :
    ∃ t ∈ s.flatten, t.asInt = some 3 := by
  induction h with
  | blank _ ih =>
    obtain ⟨t, ht, h3⟩ := ih
    exact ⟨t, by simpa only [List.flatten_cons, List.nil_append] using ht, h3⟩
  | @exit t ts ls ht =>
    exact ⟨t, by simp only [List.flatten_cons, List.mem_append, List.mem_cons, true_or], ht⟩
  | @calculation t0 ts ls fuel s2 o out _ hs _ ih =>
    obtain ⟨t, ht, h3⟩ := ih
    have := session_rest_subset _ _ _ _ hs t ht
    refine ⟨t, ?_, h3⟩
    simp only [List.flatten_cons, List.mem_append, List.mem_cons] at this ⊢
    rcases this with h2 | h2
    · exact Or.inl (Or.inr h2)
    · exact Or.inr h2
  | tests _ _ ih =>
    obtain ⟨t, ht, h3⟩ := ih
    refine ⟨t, ?_, h3⟩
    simp only [List.flatten_cons, List.mem_append, List.mem_cons] at ht ⊢
    rcases ht with h2 | h2
    · exact Or.inl (Or.inr h2)
    · exact Or.inr h2
  | other _ _ _ _ _ ih =>
    obtain ⟨t, ht, h3⟩ := ih
    refine ⟨t, ?_, h3⟩
    simp only [List.flatten_cons, List.mem_append, List.mem_cons] at ht ⊢
    rcases ht with h2 | h2
    · exact Or.inl (Or.inr h2)
    · exact Or.inr h2
  | nonNumeric _ _ ih =>
    obtain ⟨t, ht, h3⟩ := ih
    refine ⟨t, ?_, h3⟩
    simp only [List.flatten_cons, List.mem_append, List.mem_cons]
    exact Or.inr ht

/-- C8: in the menu loop `main` returns only through selection 3 and then with
status 0: whenever it returns, the status is 0, the run is a run of the menu
state machine to Exit, the output ends with the menu followed by the farewell,
and some token of the input reads as the integer 3; conversely every run of
the state machine to Exit is a return of `main` with status 0; on an input with
no token reading as 3, and on exhausted input, `main` never returns.  Step by
step: selection 3 exits with status 0; selection 2 runs the self-tests and goes
back to the menu; selection 1 runs one session and goes back to the menu; any
other integer reports the 1-to-3 error and goes back to the menu; a non-numeric
token reports the not-a-number error, discards its line and goes back to the
menu. -/
theorem main_exits_only_on_selection_3 (s : Input) :
    (∀ fuel code out, main fuel s = some (code, out) →
      code = 0 ∧ MenuRun s out ∧ (∃ pre, out = pre ++ [.menu, .goodbye]) ∧
      ∃ t ∈ s.flatten, t.asInt = some 3) ∧
    (∀ out, MenuRun s out → ∃ fuel, main fuel s = some (0, out)) ∧
    ((∀ t ∈ s.flatten, t.asInt ≠ some 3) → ∀ fuel, main fuel s = none) ∧
    (∀ fuel, main fuel [] = none) ∧
    (∀ (fuel : ℕ) (t : Token) (ts : List Token) (ls : Input),
      (t.asInt = some 3 →
        main (fuel + 1) ((t :: ts) :: ls) = some (0, [.menu, .goodbye])) ∧
      (t.asInt = some 2 →
        main (fuel + 1) ((t :: ts) :: ls)
          = emit (.menu :: test_calculation) (main fuel (ts :: ls))) ∧
      (t.asInt = some 1 → ∀ s2 o,
        get_user_input_and_calculate fuel (ts :: ls) = some (s2, o) →
        main (fuel + 1) ((t :: ts) :: ls) = emit (.menu :: o) (main fuel s2)) ∧
      (∀ c : ℤ, t.asInt = some c → c ≠ 1 → c ≠ 2 → c ≠ 3 →
        main (fuel + 1) ((t :: ts) :: ls)
          = emit [.menu, .errChoice] (main fuel (ts :: ls))) ∧
      (t.asInt = none →
        main (fuel + 1) ((t :: ts) :: ls)
          = emit [.menu, .errNotNumeric] (main fuel ls))) := by
  refine ⟨?_, main_complete s, ?_, main_eof, ?_⟩
  · intro fuel code out h
    obtain ⟨hc, hm⟩ := main_sound fuel s code out h
    exact ⟨hc, hm, menu_run_ends_with_goodbye s out hm, menu_run_reads_selection_3 s out hm⟩
  · intro hno fuel
    cases h : main fuel s with
    | none => rfl
    | some r =>
      obtain ⟨code, out⟩ := r
      obtain ⟨-, hm⟩ := main_sound fuel s code out h
      obtain ⟨t, ht, h3⟩ := menu_run_reads_selection_3 s out hm
      exact absurd h3 (hno t ht)
  · intro fuel t ts ls
    refine ⟨main_exit fuel t ts ls, main_tests fuel t ts ls, ?_, ?_,
      main_non_numeric fuel t ts ls⟩
    · intro ht s2 o hs
      rw [main_calculation _ _ _ _ ht, hs]
    · intro c ht c1 c2 c3
      exact main_other fuel t ts ls c ht c1 c2 c3

/-- Witness of C8: on the input lines `abc 3`, `7 3` the menu reports the
non-numeric token and drops its line (the 3 on it included), reports the
out-of-menu integer 7, then reads 3 and exits with status 0. -/
theorem main_exits_only_on_selection_3_example :
    main 3 [[Token.word, Token.ofInt 3], [Token.ofInt 7, Token.ofInt 3]]
      = some (0, [.menu, .errNotNumeric, .menu, .errChoice, .menu, .goodbye]) ∧
    MenuRun [[Token.word, Token.ofInt 3], [Token.ofInt 7, Token.ofInt 3]]
      [.menu, .errNotNumeric, .menu, .errChoice, .menu, .goodbye] := by
  have h : main 3 [[Token.word, Token.ofInt 3], [Token.ofInt 7, Token.ofInt 3]]
      = some (0, [.menu, .errNotNumeric, .menu, .errChoice, .menu, .goodbye]) := by
    decide
  exact ⟨h, ((main_exits_only_on_selection_3 _).1 3 0 _ h).2.1⟩

end Turnover
